import Mathlib

/-!
Shallow embedding of the economy/moderation core of the ChannelAdmin bot
(`src/channel_admin/models.py`, `config.py`, `filtering.py`, `services.py`,
`storage.py`) together with theorems settling the specification claims.

Modelling conventions:
* Python `datetime` values are microsecond-quantized instants; we embed them
  as `Int` (microseconds since the epoch).  `timedelta` values are likewise
  `Int` microsecond counts.  ISO-8601 strings and seconds-valued JSON numbers
  are injective encodings of these integers, so the JSON mirror structures
  below store the integers themselves.
* Python `float` money amounts are embedded as exact rationals (`ℚ`).
* Python dictionaries are embedded as lists in insertion order (Python dicts
  preserve insertion order); writing an existing key replaces the entry in
  place, a fresh key is appended.
* Python exceptions are embedded as `Except Err`; because an exception does
  not roll back earlier storage writes, every service operation returns the
  storage state alongside the result, also on the error path.
-/

deriving instance DecidableEq for Except

namespace ChannelAdmin

/-- Error kinds corresponding to the distinct `ValueError` / `PermissionError`
messages raised by the source. -/
inductive Err where
  | negativeAdd
  | spendNotPositive
  | notEnoughEnergy
  | subscriptionRequired
  | userBanned
  | amountNotPositive
  | selfReferral
  | contentRejected
  | durationNotPositive
  | energyPaymentUnavailable
  | emptyMessage
  | invalidSender
  | ticketNotFound
  | permissionDenied
  | negativeBalance
  | negativeResultingBalance
  | invalidExchangeRate
  | postWithoutId
  deriving DecidableEq, Repr

/-- `models.GoldenCard`: `duration` and `purchased_at` in microseconds. -/
structure GoldenCard where
  duration : Int
  purchased_at : Int
  deriving DecidableEq, Repr

/-- `GoldenCard.expires_at = purchased_at + duration`. -/
def GoldenCard.expires_at (c : GoldenCard) : Int :=
  c.purchased_at + c.duration

/-- `models.User`. -/
structure User where
  user_id : Int
  energy : Int
  golden_cards : List GoldenCard
  referred_users : Finset Int
  is_banned : Bool
  is_admin : Bool
  username : Option String
  full_name : Option String
  deriving DecidableEq

/-- A `User` dataclass with all defaulted fields at their defaults. -/
def mkUser (uid : Int) (username fullName : Option String) : User :=
  { user_id := uid, energy := 0, golden_cards := [], referred_users := ∅,
    is_banned := false, is_admin := false,
    username := username, full_name := fullName }

/-- `User.add_energy`: rejects negative amounts. -/
def User.add_energy (u : User) (amount : Int) : Except Err User :=
  if amount < 0 then .error .negativeAdd
  else .ok { u with energy := u.energy + amount }

/-- `User.spend_energy`: fails closed instead of clamping. -/
def User.spend_energy (u : User) (amount : Int) : Except Err User :=
  if amount ≤ 0 then .error .spendNotPositive
  else if u.energy < amount then .error .notEnoughEnergy
  else .ok { u with energy := u.energy - amount }

/-- Helper for `User.pop_active_golden_card`: remove the first card in list
order whose `expires_at` is strictly after `now`. -/
def popActiveCard (now : Int) : List GoldenCard → Option GoldenCard × List GoldenCard
  | [] => (none, [])
  | c :: rest =>
      if now < c.expires_at then (some c, rest)
      else
        let (r, rest') := popActiveCard now rest
        (r, c :: rest')

/-- `User.pop_active_golden_card`. -/
def User.pop_active_golden_card (u : User) (now : Int) : Option GoldenCard × User :=
  let (r, cards) := popActiveCard now u.golden_cards
  (r, { u with golden_cards := cards })

/-- `models.Post`. -/
structure Post where
  user_id : Int
  text : String
  requires_pin : Bool
  created_at : Int
  post_id : Option Int
  status : String
  channel_message_id : Option Int
  chat_message_id : Option Int
  button_text : Option String
  button_url : Option String
  photo_file_id : Option String
  parse_mode : Option String
  deriving DecidableEq, Repr

/-- `models.Invoice`. -/
structure Invoice where
  invoice_id : Int
  user_id : Int
  invoice_type : String
  amount : ℚ
  asset : String
  pay_url : String
  price : ℚ
  status : String
  created_at : Int
  paid_at : Option Int
  payload : Option String
  energy_amount : Option Int
  golden_hours : Option Int
  deriving DecidableEq, Repr

/-- `models.TicketMessage`. -/
structure TicketMessage where
  message_id : Int
  ticket_id : Int
  sender : String
  text : String
  created_at : Int
  deriving DecidableEq, Repr

/-- `models.Ticket`. -/
structure Ticket where
  ticket_id : Int
  user_id : Int
  status : String
  subject : Option String
  created_at : Int
  updated_at : Int
  messages : List TicketMessage
  deriving DecidableEq, Repr

/-- Python `str.strip()` (no arguments): drop whitespace from both ends.
Implemented on the character list so that it reduces in the kernel. -/
def pyStrip (t : String) : String :=
  String.mk
    (((t.data.dropWhile Char.isWhitespace).reverse.dropWhile
        Char.isWhitespace).reverse)

/-- Python string slicing `s[:n]`. -/
def pyTake (t : String) (n : Nat) : String :=
  String.mk (t.data.take n)

/-- Python truthiness of the `subject` field: falsy iff `None` or `""`. -/
def subjectFalsy : Option String → Bool
  | none => true
  | some s => s = ""

/-- `Ticket.add_message`: append, stamp `updated_at`, derive `subject` from
the first user message when `subject` is still falsy. -/
def Ticket.add_message (t : Ticket) (m : TicketMessage) : Ticket :=
  let t' : Ticket :=
    { t with messages := t.messages ++ [m], updated_at := m.created_at }
  if subjectFalsy t'.subject && (m.sender == "user") then
    let preview := pyStrip m.text
    { t' with subject := if preview ≠ "" then some (pyTake preview 80) else none }
  else t'

/-- `models.BotSettings`. -/
structure BotSettings where
  autopost_paused : Bool
  post_energy_cost : Int
  energy_price_per_unit : ℚ
  subscription_chat_id : Option String
  subscription_invite_link : Option String
  deriving DecidableEq, Repr

/-- Insertion-ordered dictionary write: replace the entry with the same key in
place, append when the key is fresh (Python `dict` assignment). -/
def upsertBy {α κ : Type} [DecidableEq κ] (key : α → κ) (x : α) : List α → List α
  | [] => [x]
  | y :: ys => if key y = key x then x :: ys else y :: upsertBy key x ys

/-- Stable insertion of `x` into a list sorted ascending on `key`
(placed before the first element with a key `≥` its own from the right
fold below, which reproduces Python's stable `sorted`). -/
def insertSorted {α : Type} (key : α → Int) (x : α) : List α → List α
  | [] => [x]
  | y :: ys => if key x ≤ key y then x :: y :: ys else y :: insertSorted key x ys

/-- Stable ascending sort on `key` (Python's `sorted(..., key=...)`). -/
def stableSortBy {α : Type} (key : α → Int) (l : List α) : List α :=
  l.foldr (insertSorted key) []

/-- `storage.InMemoryStorage` state. -/
structure Storage where
  users : List User
  posts : List Post
  post_sequence : Int
  invoices : List Invoice
  settings : BotSettings
  tickets : List Ticket
  ticket_sequence : Int
  ticket_message_sequence : Int
  deriving DecidableEq

/-- `InMemoryStorage.get_user` (returned values are deep copies, which value
semantics gives for free). -/
def Storage.getUser (s : Storage) (uid : Int) : Option User :=
  s.users.find? (fun u => u.user_id = uid)

/-- `InMemoryStorage.save_user`. -/
def Storage.saveUser (s : Storage) (u : User) : Storage :=
  { s with users := upsertBy User.user_id u s.users }

/-- `InMemoryStorage.add_post`: assigns `post_sequence` as id when the post
has none, then stores it; returns the post as mutated by the call. -/
def Storage.addPost (s : Storage) (p : Post) : Post × Storage :=
  match p.post_id with
  | none =>
      let p' := { p with post_id := some s.post_sequence }
      (p', { s with posts := upsertBy Post.post_id p' s.posts,
                    post_sequence := s.post_sequence + 1 })
  | some _ => (p, { s with posts := upsertBy Post.post_id p s.posts })

/-- `InMemoryStorage.get_post`. -/
def Storage.getPost (s : Storage) (pid : Int) : Option Post :=
  s.posts.find? (fun p => p.post_id = some pid)

/-- `InMemoryStorage.save_post`: raises when the post has no id. -/
def Storage.savePost (s : Storage) (p : Post) : Except Err Storage :=
  match p.post_id with
  | none => .error .postWithoutId
  | some _ => .ok { s with posts := upsertBy Post.post_id p s.posts }

/-- `InMemoryStorage.list_posts_by_status`: stable sort by `created_at`,
then filter by status. -/
def Storage.listPostsByStatus (s : Storage) (status : String) : List Post :=
  (stableSortBy Post.created_at s.posts).filter (fun p => p.status = status)

/-- `InMemoryStorage.list_posts_for_user` with an explicit status set. -/
def Storage.listPostsForUser (s : Storage) (uid : Int) (statuses : List String) :
    List Post :=
  (stableSortBy Post.created_at s.posts).filter
    (fun p => p.user_id = uid && statuses.contains p.status)

/-- `InMemoryStorage.save_invoice`. -/
def Storage.saveInvoice (s : Storage) (inv : Invoice) : Storage :=
  { s with invoices := upsertBy Invoice.invoice_id inv s.invoices }

/-- `InMemoryStorage.get_invoice`. -/
def Storage.getInvoice (s : Storage) (iid : Int) : Option Invoice :=
  s.invoices.find? (fun inv => inv.invoice_id = iid)

/-- `InMemoryStorage.get_ticket`. -/
def Storage.getTicket (s : Storage) (tid : Int) : Option Ticket :=
  s.tickets.find? (fun t => t.ticket_id = tid)

/-- `InMemoryStorage.save_ticket`. -/
def Storage.saveTicket (s : Storage) (t : Ticket) : Storage :=
  { s with tickets := upsertBy Ticket.ticket_id t s.tickets }

/-- `InMemoryStorage.create_ticket`: allocates a ticket id and a message id,
appends the initial user message, and falls back to deriving `subject` when
`add_message` left it `None` (the `is None` check of the source). -/
def Storage.createTicket (s : Storage) (uid : Int) (initialMessage : String)
    (now : Int) : Ticket × Storage :=
  let tid := s.ticket_sequence
  let t0 : Ticket :=
    { ticket_id := tid, user_id := uid, status := "open", subject := none,
      created_at := now, updated_at := now, messages := [] }
  let msg : TicketMessage :=
    { message_id := s.ticket_message_sequence, ticket_id := tid,
      sender := "user", text := initialMessage, created_at := now }
  let t1 := t0.add_message msg
  let t2 :=
    if t1.subject = none then
      let preview := pyStrip initialMessage
      { t1 with subject := if preview ≠ "" then some (pyTake preview 80) else none }
    else t1
  (t2, { s with tickets := upsertBy Ticket.ticket_id t2 s.tickets,
                ticket_sequence := s.ticket_sequence + 1,
                ticket_message_sequence := s.ticket_message_sequence + 1 })

/-- `InMemoryStorage.add_ticket_message`: `None` when the ticket is missing,
otherwise appends the message (note the falsy `not ticket.subject` check on
the subject fallback here, unlike `create_ticket`). -/
def Storage.addTicketMessage (s : Storage) (tid : Int) (sender text : String)
    (now : Int) : Option Ticket × Storage :=
  match s.getTicket tid with
  | none => (none, s)
  | some t =>
      let msg : TicketMessage :=
        { message_id := s.ticket_message_sequence, ticket_id := tid,
          sender := sender, text := text, created_at := now }
      let t1 := t.add_message msg
      let t2 :=
        if sender == "user" && subjectFalsy t1.subject then
          let preview := pyStrip text
          { t1 with subject := if preview ≠ "" then some (pyTake preview 80) else none }
        else t1
      (some t2,
        { s with tickets := upsertBy Ticket.ticket_id t2 s.tickets,
                 ticket_message_sequence := s.ticket_message_sequence + 1 })

/-- `config.PricingConfig` (floats as exact rationals). -/
structure PricingConfig where
  energy_price_per_unit : ℚ
  energy_bundle_prices : List (Int × ℚ)
  golden_card_hourly_price : ℚ
  rubles_per_usd : ℚ
  deriving DecidableEq

/-- `PricingConfig.price_for_energy`: bundle price when the amount matches a
configured bundle, unit price times amount otherwise. -/
def PricingConfig.price_for_energy (cfg : PricingConfig) (amount : Int) : ℚ :=
  match cfg.energy_bundle_prices.lookup amount with
  | some p => p
  | none => cfg.energy_price_per_unit * amount

/-- `PricingConfig.price_for_golden_card`: duration is microseconds, hours is
the exact rational quotient. -/
def PricingConfig.price_for_golden_card (cfg : PricingConfig) (duration : Int) :
    Except Err ℚ :=
  let totalHours : ℚ := (duration : ℚ) / 3600000000
  if totalHours ≤ 0 then .error .durationNotPositive
  else .ok (cfg.golden_card_hourly_price * totalHours)

/-- `PricingConfig.convert_rub_to_usd`: non-positive amounts short-circuit to
`0` before the exchange-rate validity check. -/
def PricingConfig.convert_rub_to_usd (cfg : PricingConfig) (rubAmount : ℚ) :
    Except Err ℚ :=
  if rubAmount ≤ 0 then .ok 0
  else if cfg.rubles_per_usd ≤ 0 then .error .invalidExchangeRate
  else .ok (rubAmount / cfg.rubles_per_usd)

/-- `PricingConfig.convert_usd_to_rub`. -/
def PricingConfig.convert_usd_to_rub (cfg : PricingConfig) (usdAmount : ℚ) :
    Except Err ℚ :=
  if usdAmount ≤ 0 then .ok 0
  else if cfg.rubles_per_usd ≤ 0 then .error .invalidExchangeRate
  else .ok (usdAmount * cfg.rubles_per_usd)

/-- Lower-casing covering ASCII and the basic Cyrillic range used by the
banned-word defaults (Python `str.lower` restricted to those scripts). -/
def lowerChar (c : Char) : Char :=
  if c.val ≥ 0x410 && c.val ≤ 0x42F then Char.ofNat (c.toNat + 0x20)
  else if c = 'Ё' then 'ё'
  else c.toLower

/-- The punctuation characters stripped from each token by
`WordFilter.is_allowed` (the argument of `str.strip`). -/
def stripSet : List Char := ['.', ',', '!', '?', '"', '\'', '\n', '\r', '\t', ' ']

/-- Python `token.strip(".,!?\"'\n\r\t ")`: drop those characters from both
ends. -/
def stripToken (t : String) : String :=
  let cs := t.toList
  let cs := cs.dropWhile (fun c => stripSet.contains c)
  let cs := (cs.reverse.dropWhile (fun c => stripSet.contains c)).reverse
  String.mk cs

/-- Helper for `splitWs`: scan the characters, accumulating the current
token (reversed) and emitting it at whitespace boundaries. -/
def splitWsChars : List Char → List Char → List String
  | [], acc => if acc.isEmpty then [] else [String.mk acc.reverse]
  | c :: cs, acc =>
      if c.isWhitespace then
        if acc.isEmpty then splitWsChars cs []
        else String.mk acc.reverse :: splitWsChars cs []
      else splitWsChars cs (c :: acc)

/-- Python `text.split()`: split on whitespace runs, dropping empty tokens. -/
def splitWs (text : String) : List String :=
  splitWsChars text.data []

/-- `filtering.WordFilter.is_allowed`: no banned word appears among the
stripped, lower-cased whitespace tokens of the text.  `bannedWords` is the
filter's banned set, already lower-cased by `WordFilter.from_iterable`. -/
def isAllowed (bannedWords : List String) (text : String) : Bool :=
  let words := (splitWs text).map
    (fun t => String.mk ((stripToken t).data.map lowerChar))
  !(bannedWords.any (fun w => words.contains w))

/-- The `ChannelEconomyService` configuration: pricing, the lowered banned
word set of its `WordFilter`, and its energy parameters (the latter mirror
the service fields refreshed by `apply_settings`). -/
structure Service where
  pricing : PricingConfig
  banned_words : List String
  registration_energy : Int
  referral_energy : Int
  post_energy_cost : Int
  deriving DecidableEq

/-- A service result: the outcome together with the storage state at return
or raise time (Python exceptions do not undo earlier storage writes). -/
abbrev Res (α : Type) := Except Err α × Storage

/-- `ChannelEconomyService._get_or_create_user`: lazily creates the record
(with zero energy) and upserts the optional profile fields. -/
def getOrCreateUser (uid : Int) (username fullName : Option String)
    (s : Storage) : User × Storage :=
  match s.getUser uid with
  | none =>
      let u := mkUser uid username fullName
      (u, s.saveUser u)
  | some u =>
      let (u1, upd1) :=
        match username with
        | some n => if u.username ≠ some n then ({ u with username := some n }, true) else (u, false)
        | none => (u, false)
      let (u2, upd2) :=
        match fullName with
        | some n => if u1.full_name ≠ some n then ({ u1 with full_name := some n }, true) else (u1, false)
        | none => (u1, false)
      (u2, if upd1 || upd2 then s.saveUser u2 else s)

/-- `ChannelEconomyService.register_user`: requires subscription, then either
creates the user with the registration energy or upserts the profile. -/
def registerUser (svc : Service) (uid : Int) (subscribed : Bool)
    (username fullName : Option String) (s : Storage) : Res User :=
  if !subscribed then (.error .subscriptionRequired, s)
  else
    match s.getUser uid with
    | none =>
        let u := mkUser uid username fullName
        match u.add_energy svc.registration_energy with
        | .error e => (.error e, s)
        | .ok u' => (.ok u', s.saveUser u')
    | some u =>
        let (u1, upd1) :=
          match username with
          | some n => if u.username ≠ some n then ({ u with username := some n }, true) else (u, false)
          | none => (u, false)
        let (u2, upd2) :=
          match fullName with
          | some n => if u1.full_name ≠ some n then ({ u1 with full_name := some n }, true) else (u1, false)
          | none => (u1, false)
        (.ok u2, if upd1 || upd2 then s.saveUser u2 else s)

/-- `ChannelEconomyService.credit_energy`. -/
def creditEnergy (_svc : Service) (uid : Int) (amount : Int) (s : Storage) :
    Res User :=
  if amount ≤ 0 then (.error .amountNotPositive, s)
  else
    let (u, s1) := getOrCreateUser uid none none s
    if u.is_banned then (.error .userBanned, s1)
    else
      match u.add_energy amount with
      | .error e => (.error e, s1)
      | .ok u' => (.ok u', s1.saveUser u')

/-- `ChannelEconomyService.purchase_energy`: computes the price, then credits
the amount (the price is the returned value). -/
def purchaseEnergy (svc : Service) (uid : Int) (amount : Int) (s : Storage) :
    Res ℚ :=
  let (u, s1) := getOrCreateUser uid none none s
  let price := svc.pricing.price_for_energy amount
  if u.is_banned then (.error .userBanned, s1)
  else
    match u.add_energy amount with
    | .error e => (.error e, s1)
    | .ok u' => (.ok price, s1.saveUser u')

/-- `ChannelEconomyService.award_referral`: banned / self-referral checks,
then an idempotence guard on the referred set before crediting the bonus. -/
def awardReferral (svc : Service) (referrerId referredId : Int) (s : Storage) :
    Res Unit :=
  let (referrer, s1) := getOrCreateUser referrerId none none s
  let (referred, s2) := getOrCreateUser referredId none none s1
  if referrer.is_banned then (.error .userBanned, s2)
  else if referredId = referrerId then (.error .selfReferral, s2)
  else if referredId ∈ referrer.referred_users then (.ok (), s2)
  else
    let r1 := { referrer with referred_users := insert referredId referrer.referred_users }
    match r1.add_energy svc.referral_energy with
    | .error e => (.error e, s2)
    | .ok r2 => (.ok (), (s2.saveUser r2).saveUser referred)

/-- `ChannelEconomyService.submit_post`: ban check, word filter, energy
spend, golden-card consumption, then the `pending` post is stored. -/
def submitPost (svc : Service) (uid : Int) (text : String)
    (buttonText buttonUrl photoFileId parseModeArg : Option String)
    (now : Int) (s : Storage) : Res Post :=
  let (u, s1) := getOrCreateUser uid none none s
  if u.is_banned then (.error .userBanned, s1)
  else if !(isAllowed svc.banned_words text) then (.error .contentRejected, s1)
  else
    match u.spend_energy svc.post_energy_cost with
    | .error e => (.error e, s1)
    | .ok u2 =>
        let (card, u3) := u2.pop_active_golden_card now
        let post : Post :=
          { user_id := uid, text := text, requires_pin := card.isSome,
            created_at := now, post_id := none, status := "pending",
            channel_message_id := none, chat_message_id := none,
            button_text := buttonText, button_url := buttonUrl,
            photo_file_id := photoFileId, parse_mode := parseModeArg }
        let s2 := s1.saveUser u3
        let (post', s3) := s2.addPost post
        (.ok post', s3)

/-- `ChannelEconomyService.energy_cost_for_golden_card`: `None` when paying
with energy is unavailable (non-positive unit price), otherwise
`max 1 ⌈price / unit⌉`. -/
def energyCostForGoldenCard (svc : Service) (duration : Int) :
    Except Err (Option Int) :=
  if duration ≤ 0 then .error .durationNotPositive
  else
    let unitPrice := svc.pricing.energy_price_per_unit
    if unitPrice ≤ 0 then .ok none
    else
      match svc.pricing.price_for_golden_card duration with
      | .error e => .error e
      | .ok price => .ok (some (max 1 ⌈price / unitPrice⌉))

/-- `ChannelEconomyService.purchase_golden_card_with_energy`. -/
def purchaseGoldenCardWithEnergy (svc : Service) (uid : Int) (duration : Int)
    (now : Int) (s : Storage) : Res Int :=
  match energyCostForGoldenCard svc duration with
  | .error e => (.error e, s)
  | .ok none => (.error .energyPaymentUnavailable, s)
  | .ok (some cost) =>
      let (u, s1) := getOrCreateUser uid none none s
      if u.is_banned then (.error .userBanned, s1)
      else
        match u.spend_energy cost with
        | .error e => (.error e, s1)
        | .ok u2 =>
            let u3 := { u2 with golden_cards :=
                          u2.golden_cards ++ [⟨duration, now⟩] }
            (.ok cost, s1.saveUser u3)

/-- `ChannelEconomyService.set_user_energy`: admin override, rejected when
negative. -/
def setUserEnergy (uid : Int) (energy : Int) (s : Storage) : Res User :=
  if energy < 0 then (.error .negativeBalance, s)
  else
    let (u, s1) := getOrCreateUser uid none none s
    let u' := { u with energy := energy }
    (.ok u', s1.saveUser u')

/-- `ChannelEconomyService.adjust_user_energy`: rejected when the resulting
balance would be negative. -/
def adjustUserEnergy (uid : Int) (delta : Int) (s : Storage) : Res User :=
  let (u, s1) := getOrCreateUser uid none none s
  if u.energy + delta < 0 then (.error .negativeResultingBalance, s1)
  else
    let u' := { u with energy := u.energy + delta }
    (.ok u', s1.saveUser u')

/-- `ChannelEconomyService.approve_post`: cancels instead when the author is
banned (returning `none`), otherwise marks the post `approved`. -/
def approvePost (pid : Int) (s : Storage) : Res (Option Post) :=
  match s.getPost pid with
  | none => (.ok none, s)
  | some post =>
      if ((s.getUser post.user_id).map User.is_banned).getD false then
        match s.savePost { post with status := "cancelled" } with
        | .error e => (.error e, s)
        | .ok s' => (.ok none, s')
      else
        match s.savePost { post with status := "approved" } with
        | .error e => (.error e, s)
        | .ok s' => (.ok (some { post with status := "approved" }), s')

/-- `ChannelEconomyService.reject_post`: no-op on an already rejected post,
otherwise marks it `rejected` and refunds `post_energy_cost` to the author. -/
def rejectPost (svc : Service) (pid : Int) (s : Storage) : Res (Option Post) :=
  match s.getPost pid with
  | none => (.ok none, s)
  | some post =>
      if post.status = "rejected" then (.ok (some post), s)
      else
        let post' := { post with status := "rejected" }
        match s.savePost post' with
        | .error e => (.error e, s)
        | .ok s1 =>
            let (user, s2) := getOrCreateUser post.user_id none none s1
            match user.add_energy svc.post_energy_cost with
            | .error e => (.error e, s2)
            | .ok u2 => (.ok (some post'), s2.saveUser u2)

/-- The loop body of `ChannelEconomyService.reserve_next_post`, iterating
over the pre-computed list of approved posts. -/
def reserveLoop (s : Storage) : List Post → Res (Option Post)
  | [] => (.ok none, s)
  | p :: rest =>
      if ((s.getUser p.user_id).map User.is_banned).getD false then
        match s.savePost { p with status := "cancelled" } with
        | .error e => (.error e, s)
        | .ok s' => reserveLoop s' rest
      else if p.status = "approved" then
        match s.savePost { p with status := "publishing" } with
        | .error e => (.error e, s)
        | .ok s' => (.ok (some { p with status := "publishing" }), s')
      else reserveLoop s rest

/-- `ChannelEconomyService.reserve_next_post`. -/
def reserveNextPost (s : Storage) : Res (Option Post) :=
  reserveLoop s (s.listPostsByStatus "approved")

/-- `ChannelEconomyService.mark_post_published`: unconditionally stamps the
post `published` and records the delivery message ids. -/
def markPostPublished (pid : Int) (channelMessageId chatMessageId : Option Int)
    (s : Storage) : Res (Option Post) :=
  match s.getPost pid with
  | none => (.ok none, s)
  | some post =>
      let post' : Post :=
        { post with
          status := "published"
          channel_message_id := channelMessageId
          chat_message_id := chatMessageId }
      match s.savePost post' with
      | .error e => (.error e, s)
      | .ok s' => (.ok (some post'), s')

/-- `ChannelEconomyService.mark_post_failed`: re-queues the post as
`approved`. -/
def markPostFailed (pid : Int) (s : Storage) : Res (Option Post) :=
  match s.getPost pid with
  | none => (.ok none, s)
  | some post =>
      let post' := { post with status := "approved" }
      match s.savePost post' with
      | .error e => (.error e, s)
      | .ok s' => (.ok (some post'), s')

/-- `ChannelEconomyService.update_post_parse_mode`. -/
def updatePostParseMode (pid : Int) (parseModeArg : Option String)
    (s : Storage) : Res (Option Post) :=
  match s.getPost pid with
  | none => (.ok none, s)
  | some post =>
      let post' := { post with parse_mode := parseModeArg }
      match s.savePost post' with
      | .error e => (.error e, s)
      | .ok s' => (.ok (some post'), s')

/-- The loop of `ChannelEconomyService.cancel_posts_for_user`. -/
def cancelLoop (s : Storage) (count : Int) : List Post → Res Int
  | [] => (.ok count, s)
  | p :: rest =>
      match s.savePost { p with status := "cancelled" } with
      | .error e => (.error e, s)
      | .ok s' => cancelLoop s' (count + 1) rest

/-- `ChannelEconomyService.cancel_posts_for_user`: bulk-cancels the user's
`pending` / `approved` / `publishing` posts. -/
def cancelPostsForUser (uid : Int) (s : Storage) : Res Int :=
  cancelLoop s 0 (s.listPostsForUser uid ["pending", "approved", "publishing"])

/-- `ChannelEconomyService.open_ticket`. -/
def openTicket (uid : Int) (message : String) (now : Int) (s : Storage) :
    Res Ticket :=
  let text := pyStrip message
  if text = "" then (.error .emptyMessage, s)
  else
    let (u, s1) := getOrCreateUser uid none none s
    if u.is_banned then (.error .userBanned, s1)
    else
      let (t, s2) := s1.createTicket uid text now
      (.ok t, s2)

/-- `ChannelEconomyService.add_ticket_message`. -/
def addTicketMessage (tid : Int) (sender message : String) (now : Int)
    (s : Storage) : Res Ticket :=
  let text := pyStrip message
  if text = "" then (.error .emptyMessage, s)
  else if !(sender = "user" || sender = "admin") then (.error .invalidSender, s)
  else
    match s.addTicketMessage tid sender text now with
    | (none, s') => (.error .ticketNotFound, s')
    | (some t, s') => (.ok t, s')

/-- `ChannelEconomyService.close_ticket`: owner check when an actor is
supplied, then the status flip stamps `updated_at` with the current time. -/
def closeTicket (tid : Int) (actorUserId : Option Int) (now : Int)
    (s : Storage) : Res Ticket :=
  match s.getTicket tid with
  | none => (.error .ticketNotFound, s)
  | some t =>
      if (actorUserId.map (fun a => t.user_id != a)).getD false then
        (.error .permissionDenied, s)
      else
        let t' := { t with status := "closed", updated_at := now }
        (.ok t', s.saveTicket t')

/-- `ChannelEconomyService.reopen_ticket`. -/
def reopenTicket (tid : Int) (actorUserId : Option Int) (now : Int)
    (s : Storage) : Res Ticket :=
  match s.getTicket tid with
  | none => (.error .ticketNotFound, s)
  | some t =>
      if (actorUserId.map (fun a => t.user_id != a)).getD false then
        (.error .permissionDenied, s)
      else
        let t' := { t with status := "open", updated_at := now }
        (.ok t', s.saveTicket t')

/-!
JSON mirror of `storage.py`'s per-entity serialization.  Each `...Json`
structure has exactly the keys of the dict built by the corresponding
`_serialize_*` function; timestamp fields hold the microsecond integer that
the ISO-8601 string encodes and `duration_seconds` holds the microsecond
integer that the seconds-valued float encodes (both encodings are injective
on microsecond-quantized values, so they are elided).
-/

/-- The dict built by `storage._serialize_golden_card`. -/
structure GoldenCardJson where
  duration_seconds : Int
  purchased_at : Int
  deriving DecidableEq, Repr

/-- `storage._serialize_golden_card`. -/
def serializeGoldenCard (c : GoldenCard) : GoldenCardJson :=
  { duration_seconds := c.duration, purchased_at := c.purchased_at }

/-- `storage._deserialize_golden_card` (on serializer-shaped input both
fields are present and well-formed, so the `None` fallbacks are vacuous). -/
def deserializeGoldenCard (j : GoldenCardJson) : GoldenCard :=
  { duration := j.duration_seconds, purchased_at := j.purchased_at }

/-- The dict built by `storage._serialize_user`. -/
structure UserJson where
  user_id : Int
  energy : Int
  golden_cards : List GoldenCardJson
  referred_users : List Int
  is_banned : Bool
  is_admin : Bool
  username : Option String
  full_name : Option String
  deriving DecidableEq

/-- `storage._serialize_user`: the referred set is persisted sorted. -/
def serializeUser (u : User) : UserJson :=
  { user_id := u.user_id, energy := u.energy,
    golden_cards := u.golden_cards.map serializeGoldenCard,
    referred_users := u.referred_users.sort (· ≤ ·),
    is_banned := u.is_banned, is_admin := u.is_admin,
    username := u.username, full_name := u.full_name }

/-- `storage._deserialize_user`: rebuilds the golden-card list and re-adds
each referred id into a set. -/
def deserializeUser (j : UserJson) : User :=
  { user_id := j.user_id, energy := j.energy,
    golden_cards := j.golden_cards.map deserializeGoldenCard,
    referred_users := j.referred_users.toFinset,
    is_banned := j.is_banned, is_admin := j.is_admin,
    username := j.username, full_name := j.full_name }

/-- The dict built by `storage._serialize_post`. -/
structure PostJson where
  post_id : Option Int
  user_id : Int
  text : String
  requires_pin : Bool
  created_at : Int
  status : String
  channel_message_id : Option Int
  chat_message_id : Option Int
  button_text : Option String
  button_url : Option String
  photo_file_id : Option String
  parse_mode : Option String
  deriving DecidableEq, Repr

/-- `storage._serialize_post`. -/
def serializePost (p : Post) : PostJson :=
  { post_id := p.post_id, user_id := p.user_id, text := p.text,
    requires_pin := p.requires_pin, created_at := p.created_at,
    status := p.status, channel_message_id := p.channel_message_id,
    chat_message_id := p.chat_message_id, button_text := p.button_text,
    button_url := p.button_url, photo_file_id := p.photo_file_id,
    parse_mode := p.parse_mode }

/-- `storage._deserialize_post`: note `str(payload.get("status") or
"pending")`, which turns an empty status into `"pending"` (and `str(... or
"")` on `text`, the identity on strings). -/
def deserializePost (j : PostJson) : Post :=
  { post_id := j.post_id, user_id := j.user_id, text := j.text,
    requires_pin := j.requires_pin, created_at := j.created_at,
    status := if j.status = "" then "pending" else j.status,
    channel_message_id := j.channel_message_id,
    chat_message_id := j.chat_message_id, button_text := j.button_text,
    button_url := j.button_url, photo_file_id := j.photo_file_id,
    parse_mode := j.parse_mode }

/-- The dict built by `storage._serialize_invoice`. -/
structure InvoiceJson where
  invoice_id : Int
  user_id : Int
  invoice_type : String
  amount : ℚ
  asset : String
  pay_url : String
  price : ℚ
  status : String
  created_at : Int
  paid_at : Option Int
  payload : Option String
  energy_amount : Option Int
  golden_hours : Option Int
  deriving DecidableEq, Repr

/-- `storage._serialize_invoice`. -/
def serializeInvoice (i : Invoice) : InvoiceJson :=
  { invoice_id := i.invoice_id, user_id := i.user_id,
    invoice_type := i.invoice_type, amount := i.amount, asset := i.asset,
    pay_url := i.pay_url, price := i.price, status := i.status,
    created_at := i.created_at, paid_at := i.paid_at, payload := i.payload,
    energy_amount := i.energy_amount, golden_hours := i.golden_hours }

/-- `storage._deserialize_invoice` (empty status falls back to
`"pending"`). -/
def deserializeInvoice (j : InvoiceJson) : Invoice :=
  { invoice_id := j.invoice_id, user_id := j.user_id,
    invoice_type := j.invoice_type, amount := j.amount, asset := j.asset,
    pay_url := j.pay_url, price := j.price,
    status := if j.status = "" then "pending" else j.status,
    created_at := j.created_at, paid_at := j.paid_at, payload := j.payload,
    energy_amount := j.energy_amount, golden_hours := j.golden_hours }

/-- The dict built by `storage._serialize_ticket_message`. -/
structure TicketMessageJson where
  message_id : Int
  ticket_id : Int
  sender : String
  text : String
  created_at : Int
  deriving DecidableEq, Repr

/-- `storage._serialize_ticket_message`. -/
def serializeTicketMessage (m : TicketMessage) : TicketMessageJson :=
  { message_id := m.message_id, ticket_id := m.ticket_id, sender := m.sender,
    text := m.text, created_at := m.created_at }

/-- `storage._deserialize_ticket_message` (empty sender falls back to
`"user"`). -/
def deserializeTicketMessage (j : TicketMessageJson) : TicketMessage :=
  { message_id := j.message_id, ticket_id := j.ticket_id,
    sender := if j.sender = "" then "user" else j.sender,
    text := j.text, created_at := j.created_at }

/-- The dict built by `storage._serialize_ticket`. -/
structure TicketJson where
  ticket_id : Int
  user_id : Int
  status : String
  subject : Option String
  created_at : Int
  updated_at : Int
  messages : List TicketMessageJson
  deriving DecidableEq, Repr

/-- `storage._serialize_ticket`. -/
def serializeTicket (t : Ticket) : TicketJson :=
  { ticket_id := t.ticket_id, user_id := t.user_id, status := t.status,
    subject := t.subject, created_at := t.created_at,
    updated_at := t.updated_at,
    messages := t.messages.map serializeTicketMessage }

/-- `storage._deserialize_ticket`: builds the ticket without messages, then
replays `Ticket.add_message` over the stored messages sorted by
`created_at` — each replayed append overwrites `updated_at` with that
message's timestamp. -/
def deserializeTicket (j : TicketJson) : Ticket :=
  let t0 : Ticket :=
    { ticket_id := j.ticket_id, user_id := j.user_id,
      status := if j.status = "" then "open" else j.status,
      subject := j.subject, created_at := j.created_at,
      updated_at := j.updated_at, messages := [] }
  let msgs := stableSortBy TicketMessage.created_at
    (j.messages.map deserializeTicketMessage)
  msgs.foldl Ticket.add_message t0

/-! ### Predicates and fixtures used by the claim theorems -/

/-- No post stored under `pid` has status `published`. -/
def PostNotPub (s : Storage) (pid : Int) : Prop :=
  ∀ q, s.getPost pid = some q → q.status ≠ "published"

/-- Every stored user has non-negative energy (the §8 energy invariant). -/
def allEnergyNonneg (s : Storage) : Prop :=
  ∀ u ∈ s.users, 0 ≤ u.energy

/-- The stored energy balance of `uid` (`0` when the user has no record,
matching the zero-energy record `_get_or_create_user` would create). -/
def energyOf (s : Storage) (uid : Int) : Int :=
  ((s.getUser uid).map User.energy).getD 0

/-- The `created_at` of a ticket's most recently appended message. -/
def lastMessageTime (t : Ticket) : Option Int :=
  (t.messages.getLast?).map TicketMessage.created_at

/-- The banned test applied to a post's author during reservation:
`user and user.is_banned` (a missing author counts as not banned). -/
def authorBanned (s : Storage) (p : Post) : Bool :=
  ((s.getUser p.user_id).map User.is_banned).getD false

/-- The economy-service operations quantified over by the energy
invariant claim: registration, energy credit/purchase, post submission,
golden-card purchase with energy, and the admin set/adjust operations. -/
inductive Op where
  | register (uid : Int) (subscribed : Bool) (username fullName : Option String)
  | credit (uid amount : Int)
  | purchase (uid amount : Int)
  | submit (uid : Int) (text : String)
      (buttonText buttonUrl photoFileId parseModeArg : Option String) (now : Int)
  | goldenWithEnergy (uid duration now : Int)
  | setEnergy (uid energy : Int)
  | adjustEnergy (uid delta : Int)

/-- Run one operation, keeping the storage it leaves behind (also on the
error path, since a raise does not undo earlier writes). -/
def applyOp (svc : Service) (s : Storage) : Op → Storage
  | .register uid sub un fn => (registerUser svc uid sub un fn s).2
  | .credit uid a => (creditEnergy svc uid a s).2
  | .purchase uid a => (purchaseEnergy svc uid a s).2
  | .submit uid text bt bu ph pm now => (submitPost svc uid text bt bu ph pm now s).2
  | .goldenWithEnergy uid d now => (purchaseGoldenCardWithEnergy svc uid d now s).2
  | .setEnergy uid e => (setUserEnergy uid e s).2
  | .adjustEnergy uid d => (adjustUserEnergy uid d s).2

/-- Run a sequence of operations. -/
def runOps (svc : Service) (ops : List Op) (s : Storage) : Storage :=
  ops.foldl (applyOp svc) s

/-- Default settings (`BotSettings()` of the source). -/
def defaultSettings : BotSettings :=
  { autopost_paused := false, post_energy_cost := 20,
    energy_price_per_unit := 1, subscription_chat_id := none,
    subscription_invite_link := none }

/-- A freshly constructed `InMemoryStorage`. -/
def emptyStorage : Storage :=
  { users := [], posts := [], post_sequence := 1, invoices := [],
    settings := defaultSettings, tickets := [], ticket_sequence := 1,
    ticket_message_sequence := 1 }

/-- A sample service configuration (post cost 10, as in the test fixture). -/
def sampleService : Service :=
  { pricing := { energy_price_per_unit := 1, energy_bundle_prices := [],
                 golden_card_hourly_price := 3/2, rubles_per_usd := 1 },
    banned_words := ["bad"],
    registration_energy := 100, referral_energy := 50, post_energy_cost := 10 }

/-- A pricing configuration whose exchange rate is invalid. -/
def invalidRatePricing : PricingConfig :=
  { energy_price_per_unit := 1, energy_bundle_prices := [],
    golden_card_hourly_price := 3/2, rubles_per_usd := -1 }

/-- A stored `pending` post with id 1 by user 1. -/
def samplePendingPost : Post :=
  { user_id := 1, text := "x", requires_pin := false, created_at := 0,
    post_id := some 1, status := "pending", channel_message_id := none,
    chat_message_id := none, button_text := none, button_url := none,
    photo_file_id := none, parse_mode := none }

/-- Storage holding one `pending` post (id 1) by user 1 who has 40 energy. -/
def storagePending40 : Storage :=
  { emptyStorage with
    users := [{ mkUser 1 none none with energy := 40 }],
    posts := [samplePendingPost], post_sequence := 2 }

/-- Storage holding one `approved` post whose author (user 1) is banned
(Scenario E). -/
def storageApprovedBanned : Storage :=
  { emptyStorage with
    users := [{ mkUser 1 none none with is_banned := true }],
    posts := [{ samplePendingPost with status := "approved" }],
    post_sequence := 2 }

/-- A banned user with 50 energy. -/
def bannedUser50 : User :=
  { mkUser 1 none none with is_banned := true, energy := 50 }

/-- Storage holding a banned user 1 with 50 energy (submit must fail). -/
def storageBanned50 : Storage :=
  { emptyStorage with users := [bannedUser50] }

/-- The ticket produced by `open_ticket(1, "hi")` at time 0 on an empty
storage. -/
def sampleOpenTicket : Ticket :=
  { ticket_id := 1, user_id := 1, status := "open", subject := some "hi",
    created_at := 0, updated_at := 0,
    messages := [{ message_id := 1, ticket_id := 1, sender := "user",
                   text := "hi", created_at := 0 }] }

/-- The storage after that `open_ticket` call. -/
def storageAfterOpen : Storage :=
  { emptyStorage with
    users := [mkUser 1 none none]
    tickets := [sampleOpenTicket]
    ticket_sequence := 2
    ticket_message_sequence := 2 }

/-- A sample user exercising golden cards, the referred set and optional
fields. -/
def sampleUser : User :=
  { user_id := 9, energy := 7,
    golden_cards := [{ duration := 3600000000, purchased_at := 42 }],
    referred_users := {3, 1, 2}, is_banned := false, is_admin := true,
    username := some "al", full_name := none }

/-- A sample invoice with a paid timestamp and an energy fulfillment. -/
def sampleInvoice : Invoice :=
  { invoice_id := 100, user_id := 1, invoice_type := "energy", amount := 50,
    asset := "USDT", pay_url := "u", price := 5, status := "paid",
    created_at := 11, paid_at := some 12, payload := none,
    energy_amount := some 100, golden_hours := none }

/-- A ticket that was closed after its only message: `updated_at` (5) is
later than the last message's `created_at` (0). -/
def closedTicket : Ticket :=
  { ticket_id := 1, user_id := 1, status := "closed", subject := some "hi",
    created_at := 0, updated_at := 5,
    messages := [{ message_id := 1, ticket_id := 1, sender := "user",
                   text := "hi", created_at := 0 }] }

/-! ### Helper lemmas about the storage embedding -/

theorem find?_upsertBy {α κ : Type} [DecidableEq κ] (k : α → κ) (x : α)
    (l : List α) (t : κ) :
    (upsertBy k x l).find? (fun y => k y = t) =
      if k x = t then some x else l.find? (fun y => k y = t) := by
  induction l with
  | nil =>
      simp only [upsertBy, List.find?]
      by_cases h : k x = t <;> simp [h]
  | cons y ys ih =>
      simp only [upsertBy]
      by_cases hk : k y = k x
      · by_cases h : k x = t
        · simp [hk, h, List.find?]
        · have hy : ¬ (k y = t) := by rw [hk]; exact h
          simp [hk, h, hy, List.find?]
      · by_cases hy : k y = t
        · have hx : ¬ (k x = t) := by
            intro h; exact hk (by rw [hy, h])
          have hx' : ¬ (t = k x) := fun h => hx h.symm
          simp [hk, hy, hx, hx', List.find?]
        · simp [hk, hy, List.find?, ih]

theorem upsertBy_of_find? {α κ : Type} [DecidableEq κ] (k : α → κ) (x : α)
    (l : List α) (t : κ) (hfind : l.find? (fun y => k y = t) = some x)
    (hx : k x = t) : upsertBy k x l = l := by
  induction l with
  | nil => simp [List.find?] at hfind
  | cons y ys ih =>
      by_cases hy : k y = t
      · have hyx : y = x := by
          simp [List.find?, hy] at hfind
          exact hfind
        subst hyx
        simp [upsertBy]
      · have hk : ¬ (k y = k x) := by rw [hx]; exact hy
        simp only [List.find?, hy, decide_False] at hfind
        simp [upsertBy, hk, ih hfind]

theorem getUser_saveUser (s : Storage) (u : User) (v : Int) :
    (s.saveUser u).getUser v = if u.user_id = v then some u else s.getUser v := by
  simpa [Storage.saveUser, Storage.getUser] using
    find?_upsertBy User.user_id u s.users v

theorem getUser_eq_some_id {s : Storage} {uid : Int} {u : User}
    (h : s.getUser uid = some u) : u.user_id = uid := by
  have := List.find?_some h
  simpa using this

theorem saveUser_of_getUser_eq {s : Storage} {uid : Int} {u : User}
    (h : s.getUser uid = some u) : s.saveUser u = s := by
  have hid : u.user_id = uid := getUser_eq_some_id h
  have := upsertBy_of_find? User.user_id u s.users uid h hid
  simp only [Storage.saveUser, this]

theorem getOrCreateUser_none (uid : Int) (s : Storage) :
    getOrCreateUser uid none none s =
      match s.getUser uid with
      | none => (mkUser uid none none, s.saveUser (mkUser uid none none))
      | some u => (u, s) := by
  cases h : s.getUser uid <;> simp [getOrCreateUser, h]

theorem getPost_savePost {s s' : Storage} {p : Post} {q : Int}
    (hid : p.post_id = some q) (h : s.savePost p = .ok s') (r : Int) :
    s'.getPost r = if q = r then some p else s.getPost r := by
  rw [Storage.savePost, hid] at h
  cases h
  have := find?_upsertBy Post.post_id p s.posts (some r)
  rw [hid] at this
  by_cases hqr : q = r
  · subst hqr
    simpa [Storage.getPost] using this
  · have : (upsertBy Post.post_id p s.posts).find? (fun y => y.post_id = some r)
        = s.posts.find? (fun y => y.post_id = some r) := by
      simpa [hqr] using this
    simpa [Storage.getPost, hqr] using this

theorem getPost_eq_some_id {s : Storage} {pid : Int} {p : Post}
    (h : s.getPost pid = some p) : p.post_id = some pid := by
  have := List.find?_some h
  simpa using this

theorem savePost_ok_of_some {s : Storage} {p : Post} {q : Int}
    (hid : p.post_id = some q) :
    s.savePost p = .ok { s with posts := upsertBy Post.post_id p s.posts } := by
  rw [Storage.savePost, hid]

theorem savePost_users {s s' : Storage} {p : Post}
    (h : s.savePost p = .ok s') : s'.users = s.users := by
  rw [Storage.savePost] at h
  cases hid : p.post_id with
  | none => rw [hid] at h; cases h
  | some q => rw [hid] at h; cases h; rfl

theorem savePost_getUser {s s' : Storage} {p : Post}
    (h : s.savePost p = .ok s') (v : Int) : s'.getUser v = s.getUser v := by
  simp [Storage.getUser, savePost_users h]

theorem saveUser_posts (s : Storage) (u : User) :
    (s.saveUser u).posts = s.posts := rfl

theorem saveUser_getPost (s : Storage) (u : User) (r : Int) :
    (s.saveUser u).getPost r = s.getPost r := rfl

theorem getTicket_saveTicket (s : Storage) (t : Ticket) (v : Int) :
    (s.saveTicket t).getTicket v =
      if t.ticket_id = v then some t else s.getTicket v := by
  simpa [Storage.saveTicket, Storage.getTicket] using
    find?_upsertBy Ticket.ticket_id t s.tickets v

/-! ### C10: unsubscribed registration is rejected up front -/

/-- C10: for every user id (and any storage contents, in particular when the
user already exists), `register_user(id, subscribed=false)` fails with the
subscription-required error and returns the storage unchanged; the check is
the first statement of the method, before any storage read or write. -/
theorem registerUser_unsubscribed_rejected (svc : Service) (uid : Int)
    (username fullName : Option String) (s : Storage) :
    registerUser svc uid false username fullName s =
      (.error .subscriptionRequired, s) := rfl

/-! ### C8: currency conversion error handling -/

/-- C8 (amended): a non-positive amount converts to `0` regardless of the
exchange rate — that check comes first — while a positive amount fails with
the invalid-exchange-rate error exactly when `rubles_per_usd ≤ 0`, and
otherwise converts by dividing (resp. multiplying) by the rate. -/
theorem convert_nonpositive_zero_before_rate_check (cfg : PricingConfig)
    (amount : ℚ) :
    (amount ≤ 0 →
      cfg.convert_rub_to_usd amount = .ok 0 ∧
      cfg.convert_usd_to_rub amount = .ok 0) ∧
    (0 < amount → cfg.rubles_per_usd ≤ 0 →
      cfg.convert_rub_to_usd amount = .error .invalidExchangeRate ∧
      cfg.convert_usd_to_rub amount = .error .invalidExchangeRate) ∧
    (0 < amount → 0 < cfg.rubles_per_usd →
      cfg.convert_rub_to_usd amount = .ok (amount / cfg.rubles_per_usd) ∧
      cfg.convert_usd_to_rub amount = .ok (amount * cfg.rubles_per_usd)) := by
  refine ⟨fun h => ?_, fun h hr => ?_, fun h hr => ?_⟩
  · simp [PricingConfig.convert_rub_to_usd, PricingConfig.convert_usd_to_rub, h]
  · simp [PricingConfig.convert_rub_to_usd, PricingConfig.convert_usd_to_rub,
      not_le.mpr h, hr]
  · simp [PricingConfig.convert_rub_to_usd, PricingConfig.convert_usd_to_rub,
      not_le.mpr h, not_le.mpr hr]

/-- Witness for C8's amended theorem at a concrete invalid-rate
configuration and a concrete positive amount. -/
theorem convert_nonpositive_zero_before_rate_check_witness :
    invalidRatePricing.convert_rub_to_usd 3 = .error .invalidExchangeRate ∧
    invalidRatePricing.convert_usd_to_rub 3 = .error .invalidExchangeRate :=
  (convert_nonpositive_zero_before_rate_check invalidRatePricing 3).2.1
    (by norm_num) (by norm_num [invalidRatePricing])

/-- C8 counterexample: with an invalid (negative) rate and a non-positive
amount the source returns `0` instead of failing, because the
amount-is-non-positive check precedes the rate check — refuting "fails
whenever the configured rate is ≤ 0" as a statement about every input. -/
theorem convert_rate_check_skipped_for_nonpositive_amount :
    invalidRatePricing.rubles_per_usd ≤ 0 ∧
    invalidRatePricing.convert_rub_to_usd (-5) = .ok 0 ∧
    invalidRatePricing.convert_usd_to_rub (-5) = .ok 0 := by
  refine ⟨by norm_num [invalidRatePricing], ?_, ?_⟩ <;>
    simp [invalidRatePricing, PricingConfig.convert_rub_to_usd,
      PricingConfig.convert_usd_to_rub]

/-! ### C2: how a pending post can reach `published` -/

theorem postNotPub_savePost {s s' : Storage} {p : Post} {pid : Int}
    (hsave : s.savePost p = .ok s') (hst : p.status ≠ "published")
    (h : PostNotPub s pid) : PostNotPub s' pid := by
  intro q hq
  cases hid : p.post_id with
  | none => rw [Storage.savePost, hid] at hsave; cases hsave
  | some k =>
      rw [getPost_savePost hid hsave pid] at hq
      by_cases hk : k = pid
      · rw [if_pos hk] at hq
        rw [← Option.some.inj hq]
        exact hst
      · rw [if_neg hk] at hq
        exact h q hq

theorem postNotPub_saveUser {s : Storage} {u : User} {pid : Int}
    (h : PostNotPub s pid) : PostNotPub (s.saveUser u) pid := h

theorem getOrCreateUser_posts (uid : Int) (un fn : Option String)
    (s : Storage) : (getOrCreateUser uid un fn s).2.posts = s.posts := by
  cases h : s.getUser uid
  · simp only [getOrCreateUser, h]
    rfl
  · simp only [getOrCreateUser, h]
    split
    · rfl
    · rfl

theorem postNotPub_getOrCreate {s : Storage} {pid : Int} (uid : Int)
    (un fn : Option String) (h : PostNotPub s pid) :
    PostNotPub (getOrCreateUser uid un fn s).2 pid := by
  intro q hq
  apply h q
  rw [← hq]
  simp [Storage.getPost, getOrCreateUser_posts]

theorem reserveLoop_postNotPub (pid : Int) (l : List Post) :
    ∀ (s : Storage), PostNotPub s pid → PostNotPub (reserveLoop s l).2 pid := by
  induction l with
  | nil => intro s h; exact h
  | cons p rest ih =>
      intro s h
      simp only [reserveLoop]
      split
      · cases hsave : s.savePost { p with status := "cancelled" } with
        | error e => simp only [hsave]; exact h
        | ok s' =>
            simp only [hsave]
            exact ih s' (postNotPub_savePost hsave (by simp) h)
      · split
        · cases hsave : s.savePost { p with status := "publishing" } with
          | error e => simp only [hsave]; exact h
          | ok s' =>
              simp only [hsave]
              exact postNotPub_savePost hsave (by simp) h
        · exact ih s h

theorem cancelLoop_postNotPub (pid : Int) (l : List Post) :
    ∀ (s : Storage) (c : Int), PostNotPub s pid →
      PostNotPub (cancelLoop s c l).2 pid := by
  induction l with
  | nil => intro s c h; exact h
  | cons p rest ih =>
      intro s c h
      simp only [cancelLoop]
      cases hsave : s.savePost { p with status := "cancelled" } with
      | error e => simp only [hsave]; exact h
      | ok s' =>
          simp only [hsave]
          exact ih s' (c + 1) (postNotPub_savePost hsave (by simp) h)

/-- C2 (amended): a `pending` post is never moved to `published` by
`approve_post`, `reject_post`, `mark_post_failed`, `update_post_parse_mode`,
`reserve_next_post` or `cancel_posts_for_user` — the pipeline reaches
`published` only through `approved → publishing → published` — but
`mark_post_published` itself stamps `published` on any existing post
unconditionally, so that single service operation does move a `pending`
post directly to `published`. -/
theorem pending_reaches_published_only_via_markPostPublished
    (svc : Service) (s : Storage) (pid : Int) (post : Post)
    (chId chatId : Option Int) (mode : Option String) (uid : Int)
    (hpost : s.getPost pid = some post) (hpending : post.status = "pending") :
    PostNotPub (approvePost pid s).2 pid ∧
    PostNotPub (rejectPost svc pid s).2 pid ∧
    PostNotPub (markPostFailed pid s).2 pid ∧
    PostNotPub (updatePostParseMode pid mode s).2 pid ∧
    PostNotPub (reserveNextPost s).2 pid ∧
    PostNotPub (cancelPostsForUser uid s).2 pid ∧
    (markPostPublished pid chId chatId s).1 =
      .ok (some { post with
                  status := "published"
                  channel_message_id := chId
                  chat_message_id := chatId }) ∧
    (markPostPublished pid chId chatId s).2.getPost pid =
      some { post with
             status := "published"
             channel_message_id := chId
             chat_message_id := chatId } := by
  have hid : post.post_id = some pid := getPost_eq_some_id hpost
  have h0 : PostNotPub s pid := by
    intro q hq
    rw [← Option.some.inj (hpost.symm.trans hq), hpending]
    decide
  refine ⟨?_, ?_, ?_, ?_, ?_, ?_, ?_, ?_⟩
  · -- approve_post
    simp only [approvePost, hpost]
    split
    · cases hsave : s.savePost { post with status := "cancelled" } with
      | error e => simp only [hsave]; exact h0
      | ok s' =>
          simp only [hsave]
          exact postNotPub_savePost hsave (by simp) h0
    · cases hsave : s.savePost { post with status := "approved" } with
      | error e => simp only [hsave]; exact h0
      | ok s' =>
          simp only [hsave]
          exact postNotPub_savePost hsave (by simp) h0
  · -- reject_post
    simp only [rejectPost, hpost]
    by_cases hrej : post.status = "rejected"
    · simp only [if_pos hrej]; exact h0
    · simp only [if_neg hrej]
      cases hsave : s.savePost { post with status := "rejected" } with
      | error e => simp only [hsave]; exact h0
      | ok s1 =>
          simp only [hsave]
          have h1 : PostNotPub s1 pid :=
            postNotPub_savePost hsave (by simp) h0
          have h2 := postNotPub_getOrCreate post.user_id none none h1
          cases hg : getOrCreateUser post.user_id none none s1 with
          | mk user s2 =>
              rw [hg] at h2
              cases user.add_energy svc.post_energy_cost with
              | error e => exact h2
              | ok u2 => exact postNotPub_saveUser h2
  · -- mark_post_failed
    simp only [markPostFailed, hpost]
    cases hsave : s.savePost { post with status := "approved" } with
    | error e => simp only [hsave]; exact h0
    | ok s' =>
        simp only [hsave]
        exact postNotPub_savePost hsave (by simp) h0
  · -- update_post_parse_mode
    simp only [updatePostParseMode, hpost]
    cases hsave : s.savePost { post with parse_mode := mode } with
    | error e => simp only [hsave]; exact h0
    | ok s' =>
        simp only [hsave]
        refine postNotPub_savePost hsave ?_ h0
        show post.status ≠ "published"
        rw [hpending]; decide
  · -- reserve_next_post
    exact reserveLoop_postNotPub pid _ s h0
  · -- cancel_posts_for_user
    exact cancelLoop_postNotPub pid _ s 0 h0
  · -- mark_post_published stamps published, also on a pending post
    have hid' : ({ post with
        status := "published"
        channel_message_id := chId
        chat_message_id := chatId } : Post).post_id = some pid := hid
    simp only [markPostPublished, hpost, savePost_ok_of_some hid']
  · have hid' : ({ post with
        status := "published"
        channel_message_id := chId
        chat_message_id := chatId } : Post).post_id = some pid := hid
    simp only [markPostPublished, hpost, savePost_ok_of_some hid']
    exact (getPost_savePost hid' (savePost_ok_of_some hid') pid).trans
      (if_pos rfl)

/-- Witness for C2's amended theorem: on the concrete storage with one
pending post, `mark_post_published` returns that post stamped
`published`. -/
theorem pending_reaches_published_witness :
    (markPostPublished 1 (some 7) none storagePending40).1 =
      .ok (some { samplePendingPost with
                  status := "published"
                  channel_message_id := some 7
                  chat_message_id := none }) :=
  (pending_reaches_published_only_via_markPostPublished sampleService
    storagePending40 1 samplePendingPost (some 7) none none 1
    (by decide) rfl).2.2.2.2.2.2.1

/-- C2 counterexample: `mark_post_published` is a single service operation
that moves the stored `pending` post with id 1 directly to `published`. -/
theorem markPostPublished_moves_pending_directly :
    ((storagePending40.getPost 1).map Post.status = some "pending") ∧
    (((markPostPublished 1 (some 7) none storagePending40).2.getPost 1).map
        Post.status = some "published") := by decide

/-! ### C3: reject_post refunds exactly once -/

theorem rejectPost_already_rejected {svc : Service} {pid : Int} {s' : Storage}
    {post' : Post} (hgp : s'.getPost pid = some post')
    (hst : post'.status = "rejected") :
    rejectPost svc pid s' = (.ok (some post'), s') := by
  simp only [rejectPost, hgp, if_pos hst]

/-- C3: on an existing post whose status is not `rejected`, `reject_post`
marks it `rejected`, credits exactly `post_energy_cost` to the author's
stored balance, and returns the rejected post; a second `reject_post` on
the same post returns the same post and leaves the storage exactly as it
was (no double refund). -/
theorem rejectPost_refunds_exactly_once
    (svc : Service) (s : Storage) (pid : Int) (post : Post)
    (hcost : 0 ≤ svc.post_energy_cost)
    (hpost : s.getPost pid = some post) (hstat : post.status ≠ "rejected") :
    (rejectPost svc pid s).1 = .ok (some { post with status := "rejected" }) ∧
    (rejectPost svc pid s).2.getPost pid =
      some { post with status := "rejected" } ∧
    energyOf (rejectPost svc pid s).2 post.user_id =
      energyOf s post.user_id + svc.post_energy_cost ∧
    rejectPost svc pid (rejectPost svc pid s).2 =
      (.ok (some { post with status := "rejected" }),
        (rejectPost svc pid s).2) := by
  have hid : post.post_id = some pid := getPost_eq_some_id hpost
  have hid' : ({ post with status := "rejected" } : Post).post_id = some pid := hid
  have hsave := savePost_ok_of_some (s := s) hid'
  have hnn : ¬ svc.post_energy_cost < 0 := not_lt.mpr hcost
  have hgp1 :
      Storage.getPost
        { s with posts := upsertBy Post.post_id ({ post with status := "rejected" }) s.posts }
        pid = some { post with status := "rejected" } := by
    simpa using getPost_savePost hid' hsave pid
  have key :
      (rejectPost svc pid s).1 =
        .ok (some { post with status := "rejected" }) ∧
      (rejectPost svc pid s).2.getPost pid =
        some { post with status := "rejected" } ∧
      energyOf (rejectPost svc pid s).2 post.user_id =
        energyOf s post.user_id + svc.post_energy_cost := by
    cases hg : Storage.getUser
        { s with posts := upsertBy Post.post_id ({ post with status := "rejected" }) s.posts }
        post.user_id with
    | none =>
        have hgs : s.getUser post.user_id = none := hg
        have hgoc : getOrCreateUser post.user_id none none
            { s with posts := upsertBy Post.post_id ({ post with status := "rejected" }) s.posts } =
            (mkUser post.user_id none none,
              Storage.saveUser
                { s with posts := upsertBy Post.post_id ({ post with status := "rejected" }) s.posts }
                (mkUser post.user_id none none)) := by
          rw [getOrCreateUser_none, hg]
        simp only [rejectPost, hpost, if_neg hstat, hsave, hgoc,
          User.add_energy, mkUser, if_neg hnn]
        refine ⟨by trivial, hgp1, ?_⟩
        simp only [energyOf, getUser_saveUser, if_pos rfl, hgs]
        simp
    | some u =>
        have hgs : s.getUser post.user_id = some u := hg
        have huid : u.user_id = post.user_id := getUser_eq_some_id hgs
        have hgoc : getOrCreateUser post.user_id none none
            { s with posts := upsertBy Post.post_id ({ post with status := "rejected" }) s.posts } =
            (u, { s with posts := upsertBy Post.post_id ({ post with status := "rejected" }) s.posts }) := by
          rw [getOrCreateUser_none, hg]
        simp only [rejectPost, hpost, if_neg hstat, hsave, hgoc,
          User.add_energy, if_neg hnn]
        refine ⟨by trivial, hgp1, ?_⟩
        simp only [energyOf, getUser_saveUser]
        simp [huid, hgs]
  exact ⟨key.1, key.2.1, key.2.2, rejectPost_already_rejected key.2.1 rfl⟩

/-- Witness for C3 (Scenario D): author with 40 energy, post cost 10, one
pending post — the first rejection refunds to 50, the second changes
nothing. -/
theorem rejectPost_refunds_exactly_once_witness :
    (rejectPost sampleService 1 storagePending40).1 =
      .ok (some { samplePendingPost with status := "rejected" }) ∧
    energyOf (rejectPost sampleService 1 storagePending40).2 1 = 50 := by
  have h := rejectPost_refunds_exactly_once sampleService storagePending40 1
    samplePendingPost (by decide) (by decide) (by decide)
  exact ⟨h.1, by rw [show (50 : Int) = energyOf storagePending40 1 +
    sampleService.post_energy_cost by decide]; exact h.2.2.1⟩

/-! ### C9: submit_post failures leave storage as it was -/

/-- C9: whenever `submit_post` raises (banned author, rejected text, or
insufficient energy), no post is added — the stored post list is exactly the
one before the call — and when the author already had a record, the entire
storage (in particular the author's energy and golden-card list) is exactly
as it was before the call.  (When the author had no record, the only change
is the zero-energy record `_get_or_create_user` lazily created.) -/
theorem submitPost_error_preserves_storage
    (svc : Service) (uid : Int) (text : String)
    (bt bu ph pm : Option String) (now : Int) (s : Storage) (e : Err)
    (herr : (submitPost svc uid text bt bu ph pm now s).1 = .error e) :
    (submitPost svc uid text bt bu ph pm now s).2.posts = s.posts ∧
    (∀ u, s.getUser uid = some u →
      (submitPost svc uid text bt bu ph pm now s).2 = s) := by
  cases hg : s.getUser uid with
  | none =>
      have hgoc : getOrCreateUser uid none none s =
          (mkUser uid none none, s.saveUser (mkUser uid none none)) := by
        rw [getOrCreateUser_none, hg]
      refine ⟨?_, fun v hv => by simp [hg] at hv⟩
      simp only [submitPost, hgoc] at herr ⊢
      by_cases hb : (mkUser uid none none).is_banned = true
      · simp [hb, saveUser_posts]
      · by_cases hf : (!(isAllowed svc.banned_words text)) = true
        · simp [hb, hf, saveUser_posts]
        · cases hsp : (mkUser uid none none).spend_energy svc.post_energy_cost with
          | error e2 => simp [hb, hf, hsp, saveUser_posts]
          | ok u2 =>
              rw [if_neg hb, if_neg hf, hsp] at herr
              simp at herr
  | some u =>
      have hgoc : getOrCreateUser uid none none s = (u, s) := by
        rw [getOrCreateUser_none, hg]
      have hmain : (submitPost svc uid text bt bu ph pm now s).2 = s := by
        simp only [submitPost, hgoc] at herr ⊢
        by_cases hb : u.is_banned = true
        · simp [hb]
        · by_cases hf : (!(isAllowed svc.banned_words text)) = true
          · simp [hb, hf]
          · cases hsp : u.spend_energy svc.post_energy_cost with
            | error e2 => simp [hb, hf, hsp]
            | ok u2 =>
                rw [if_neg hb, if_neg hf, hsp] at herr
                simp at herr
      exact ⟨by rw [hmain], fun v hv => hmain⟩

/-- Witness for C9: submitting as the banned user 1 fails and leaves the
concrete storage untouched. -/
theorem submitPost_error_preserves_storage_witness :
    (submitPost sampleService 1 "hello" none none none none 0
      storageBanned50).2 = storageBanned50 :=
  (submitPost_error_preserves_storage sampleService 1 "hello" none none none
    none 0 storageBanned50 .userBanned (by decide)).2 bannedUser50 (by decide)

/-! ### C7: award_referral is idempotent -/

theorem getOrCreateUser_none_fst_id (uid : Int) (s : Storage) :
    (getOrCreateUser uid none none s).1.user_id = uid := by
  cases hg : s.getUser uid
  · simp [getOrCreateUser_none, hg, mkUser]
  · simp only [getOrCreateUser_none, hg]
    exact getUser_eq_some_id hg

theorem getOrCreateUser_none_getUser_self (uid : Int) (s : Storage) :
    (getOrCreateUser uid none none s).2.getUser uid =
      some (getOrCreateUser uid none none s).1 := by
  cases hg : s.getUser uid
  · simp [getOrCreateUser_none, hg, getUser_saveUser, mkUser]
  · simp [getOrCreateUser_none, hg]

theorem getOrCreateUser_none_getUser_other (uid v : Int) (s : Storage)
    (hne : v ≠ uid) :
    (getOrCreateUser uid none none s).2.getUser v = s.getUser v := by
  cases hg : s.getUser uid
  · have : ¬ ((mkUser uid none none).user_id = v) := fun h => hne (by
      simpa [mkUser] using h.symm)
    simp [getOrCreateUser_none, hg, getUser_saveUser, this]
  · simp [getOrCreateUser_none, hg]

theorem add_energy_ok_fields {u u' : User} {amt : Int}
    (h : u.add_energy amt = .ok u') :
    u'.user_id = u.user_id ∧ u'.is_banned = u.is_banned ∧
    u'.referred_users = u.referred_users ∧ u'.energy = u.energy + amt := by
  unfold User.add_energy at h
  split at h
  · cases h
  · injection h with h'
    subst h'
    exact ⟨rfl, rfl, rfl, rfl⟩

/-- C7: `award_referral(a, b)` is idempotent — a second identical call
returns the same result and leaves the storage of the first call exactly as
it was: the referral bonus is credited only once and `b` is added to `a`'s
referred set only once (this also covers the error paths, where the second
call fails the same way without further changes). -/
theorem awardReferral_idempotent (svc : Service) (a b : Int) (s : Storage) :
    awardReferral svc a b (awardReferral svc a b s).2 =
      ((awardReferral svc a b s).1, (awardReferral svc a b s).2) := by
  obtain ⟨ra, s1, hra⟩ : ∃ ra s1, getOrCreateUser a none none s = (ra, s1) :=
    ⟨_, _, rfl⟩
  obtain ⟨rb, s2, hrb⟩ : ∃ rb s2, getOrCreateUser b none none s1 = (rb, s2) :=
    ⟨_, _, rfl⟩
  have hraid : ra.user_id = a := by
    have := getOrCreateUser_none_fst_id a s; rw [hra] at this; exact this
  have hrbid : rb.user_id = b := by
    have := getOrCreateUser_none_fst_id b s1; rw [hrb] at this; exact this
  have hs1a : s1.getUser a = some ra := by
    have := getOrCreateUser_none_getUser_self a s; rw [hra] at this; exact this
  have hs2b : s2.getUser b = some rb := by
    have := getOrCreateUser_none_getUser_self b s1; rw [hrb] at this; exact this
  have hs2a : s2.getUser a = some ra := by
    by_cases hab : b = a
    · subst hab
      rw [getOrCreateUser_none, hs1a] at hrb
      injection hrb with h1 h2
      subst h1; subst h2
      exact hs1a
    · have := getOrCreateUser_none_getUser_other b a s1
        (fun h => hab h.symm)
      rw [hrb] at this
      rw [this]
      exact hs1a
  simp only [awardReferral, hra, hrb]
  by_cases hban : ra.is_banned = true
  · rw [if_pos hban]
    have h1 : getOrCreateUser a none none s2 = (ra, s2) := by
      rw [getOrCreateUser_none, hs2a]
    have h2 : getOrCreateUser b none none s2 = (rb, s2) := by
      rw [getOrCreateUser_none, hs2b]
    simp only [awardReferral, h1, h2, if_pos hban]
  · rw [if_neg hban]
    have h1 : getOrCreateUser a none none s2 = (ra, s2) := by
      rw [getOrCreateUser_none, hs2a]
    have h2 : getOrCreateUser b none none s2 = (rb, s2) := by
      rw [getOrCreateUser_none, hs2b]
    by_cases hab : b = a
    · rw [if_pos hab]
      simp only [awardReferral, h1, h2, if_neg hban, if_pos hab]
    · rw [if_neg hab]
      by_cases hmem : b ∈ ra.referred_users
      · rw [if_pos hmem]
        simp only [awardReferral, h1, h2, if_neg hban, if_neg hab, if_pos hmem]
      · rw [if_neg hmem]
        cases hadd : User.add_energy
            { ra with referred_users := insert b ra.referred_users }
            svc.referral_energy with
        | error e =>
            simp only [hadd]
            simp only [awardReferral, h1, h2, if_neg hban, if_neg hab,
              if_neg hmem, hadd]
        | ok r2 =>
            simp only [hadd]
            obtain ⟨hr2id, hr2ban, hr2ref, _⟩ := add_energy_ok_fields hadd
            have hr2a : r2.user_id = a := by
              rw [hr2id]; exact hraid
            have hnotba : ¬ (rb.user_id = a) := by
              rw [hrbid]; exact hab
            have hs3a : ((s2.saveUser r2).saveUser rb).getUser a = some r2 := by
              rw [getUser_saveUser, if_neg hnotba, getUser_saveUser,
                if_pos hr2a]
            have hs3b : ((s2.saveUser r2).saveUser rb).getUser b = some rb := by
              rw [getUser_saveUser, if_pos hrbid]
            have h1' : getOrCreateUser a none none
                ((s2.saveUser r2).saveUser rb) =
                (r2, (s2.saveUser r2).saveUser rb) := by
              rw [getOrCreateUser_none, hs3a]
            have h2' : getOrCreateUser b none none
                ((s2.saveUser r2).saveUser rb) =
                (rb, (s2.saveUser r2).saveUser rb) := by
              rw [getOrCreateUser_none, hs3b]
            have hban2 : ¬ (r2.is_banned = true) := by
              rw [hr2ban]; exact hban
            have hmem2 : b ∈ r2.referred_users := by
              rw [hr2ref]; exact Finset.mem_insert_self b _
            simp only [awardReferral, h1', h2', if_neg hban2, if_neg hab,
              if_pos hmem2]

/-! ### C4: the reserve_next_post scan -/

theorem insertSorted_perm {α : Type} (key : α → Int) (x : α) (l : List α) :
    List.Perm (insertSorted key x l) (x :: l) := by
  induction l with
  | nil => exact List.Perm.refl _
  | cons y ys ih =>
      simp only [insertSorted]
      split
      · exact List.Perm.refl _
      · exact (ih.cons y).trans (List.Perm.swap x y ys)

theorem stableSortBy_perm {α : Type} (key : α → Int) (l : List α) :
    List.Perm (stableSortBy key l) l := by
  induction l with
  | nil => exact List.Perm.refl _
  | cons x xs ih =>
      exact (insertSorted_perm key x (stableSortBy key xs)).trans (ih.cons x)

theorem mem_listPostsByStatus {s : Storage} {st : String} {q : Post}
    (h : q ∈ s.listPostsByStatus st) : q ∈ s.posts ∧ q.status = st := by
  unfold Storage.listPostsByStatus at h
  have hmem := List.mem_of_mem_filter h
  have hpred := List.of_mem_filter h
  refine ⟨(stableSortBy_perm Post.created_at s.posts).mem_iff.mp hmem, ?_⟩
  simpa using hpred

theorem nodup_map_listPostsByStatus {s : Storage} (st : String)
    (h : (s.posts.map Post.post_id).Nodup) :
    ((s.listPostsByStatus st).map Post.post_id).Nodup := by
  have hperm := (stableSortBy_perm Post.created_at s.posts).map Post.post_id
  have hsorted : ((stableSortBy Post.created_at s.posts).map Post.post_id).Nodup :=
    hperm.nodup_iff.mpr h
  exact List.Nodup.sublist
    (List.Sublist.map Post.post_id (List.filter_sublist _)) hsorted

theorem reserveLoop_getPost_other (k : Int) (l : List Post) :
    ∀ (s : Storage), (∀ q ∈ l, q.post_id ≠ some k) →
      (reserveLoop s l).2.getPost k = s.getPost k := by
  induction l with
  | nil => intro s _; rfl
  | cons p rest ih =>
      intro s hother
      have hp : p.post_id ≠ some k := hother p (List.mem_cons_self p rest)
      simp only [reserveLoop]
      split
      · cases hsave : s.savePost { p with status := "cancelled" } with
        | error e => simp only [hsave]
        | ok s' =>
            simp only [hsave]
            rw [ih s' (fun q hq => hother q (List.mem_cons_of_mem p hq))]
            cases hid : p.post_id with
            | none =>
                have hid' : ({ p with status := "cancelled" } : Post).post_id = none := hid
                rw [Storage.savePost, hid'] at hsave; cases hsave
            | some j =>
                have hid' : ({ p with status := "cancelled" } : Post).post_id = some j := hid
                have hjk : ¬ (j = k) := fun h => hp (by rw [hid, h])
                rw [getPost_savePost hid' hsave k, if_neg hjk]
      · split
        · cases hsave : s.savePost { p with status := "publishing" } with
          | error e => simp only [hsave]
          | ok s' =>
              simp only [hsave]
              cases hid : p.post_id with
              | none =>
                  have hid' : ({ p with status := "publishing" } : Post).post_id = none := hid
                  rw [Storage.savePost, hid'] at hsave; cases hsave
              | some j =>
                  have hid' : ({ p with status := "publishing" } : Post).post_id = some j := hid
                  have hjk : ¬ (j = k) := fun h => hp (by rw [hid, h])
                  rw [getPost_savePost hid' hsave k, if_neg hjk]
        · exact ih s (fun q hq => hother q (List.mem_cons_of_mem p hq))

theorem reserveLoop_spec (s0 : Storage) (l : List Post) :
    ∀ (s : Storage),
    (∀ q ∈ l, q.status = "approved") →
    (∀ q ∈ l, q.post_id.isSome) →
    (l.map Post.post_id).Nodup →
    s.users = s0.users →
    (∀ q ∈ l.takeWhile (authorBanned s0), ∃ k, q.post_id = some k ∧
        (reserveLoop s l).2.getPost k = some { q with status := "cancelled" }) ∧
    (l.dropWhile (authorBanned s0) = [] → (reserveLoop s l).1 = .ok none) ∧
    (∀ p rest, l.dropWhile (authorBanned s0) = p :: rest →
        (reserveLoop s l).1 = .ok (some { p with status := "publishing" }) ∧
        ∃ k, p.post_id = some k ∧
          (reserveLoop s l).2.getPost k =
            some { p with status := "publishing" }) := by
  induction l with
  | nil =>
      intro s _ _ _ _
      refine ⟨by simp, fun _ => rfl, fun p rest h => by simp at h⟩
  | cons p rest ih =>
      intro s hstat hids hnodup husers
      have hgu : ∀ v, s.getUser v = s0.getUser v := fun v => by
        unfold Storage.getUser; rw [husers]
      have hcond : (((s.getUser p.user_id).map User.is_banned).getD false) =
          authorBanned s0 p := by
        unfold authorBanned; rw [hgu]
      obtain ⟨k, hk⟩ : ∃ k, p.post_id = some k := by
        cases hpk : p.post_id with
        | none =>
            have := hids p (List.mem_cons_self p rest)
            rw [hpk] at this; cases this
        | some j => exact ⟨j, rfl⟩
      have hknot : ∀ q ∈ rest, q.post_id ≠ some k := by
        intro q hq hqk
        have : p.post_id ∈ rest.map Post.post_id := by
          rw [hk, ← hqk]; exact List.mem_map_of_mem Post.post_id hq
        simp only [List.map_cons, List.nodup_cons] at hnodup
        exact hnodup.1 this
      by_cases hb : authorBanned s0 p = true
      · -- banned author: cancel and continue
        have hk' : ({ p with status := "cancelled" } : Post).post_id = some k := hk
        have hsave := savePost_ok_of_some (s := s) hk'
        have hstep : reserveLoop s (p :: rest) =
            reserveLoop { s with posts := upsertBy Post.post_id ({ p with status := "cancelled" }) s.posts } rest := by
          simp [reserveLoop, hcond, hb, hsave]
        have husers' :
            Storage.users { s with posts := upsertBy Post.post_id ({ p with status := "cancelled" }) s.posts } =
            s0.users := husers
        obtain ⟨ih1, ih2, ih3⟩ := ih _
          (fun q hq => hstat q (List.mem_cons_of_mem p hq))
          (fun q hq => hids q (List.mem_cons_of_mem p hq))
          (by simp only [List.map_cons, List.nodup_cons] at hnodup; exact hnodup.2)
          husers'
        have htake : (p :: rest).takeWhile (authorBanned s0) =
            p :: rest.takeWhile (authorBanned s0) := by
          simp [List.takeWhile_cons, hb]
        have hdrop : (p :: rest).dropWhile (authorBanned s0) =
            rest.dropWhile (authorBanned s0) := by
          simp [List.dropWhile_cons, hb]
        refine ⟨?_, ?_, ?_⟩
        · intro q hq
          rw [htake] at hq
          rcases List.mem_cons.mp hq with hq | hq
          · subst hq
            refine ⟨k, hk, ?_⟩
            rw [hstep, reserveLoop_getPost_other k rest _ hknot,
              getPost_savePost hk' hsave k, if_pos rfl]
          · obtain ⟨j, hj, hjget⟩ := ih1 q hq
            exact ⟨j, hj, by rw [hstep]; exact hjget⟩
        · intro hde
          rw [hdrop] at hde
          rw [hstep]
          exact ih2 hde
        · intro p' rest' hde
          rw [hdrop] at hde
          obtain ⟨h1, j, hj, hjget⟩ := ih3 p' rest' hde
          exact ⟨by rw [hstep]; exact h1, j, hj, by rw [hstep]; exact hjget⟩
      · -- eligible author: reserve this post
        have hb' : authorBanned s0 p = false := by
          cases h : authorBanned s0 p
          · rfl
          · exact absurd h hb
        have hk' : ({ p with status := "publishing" } : Post).post_id = some k := hk
        have hsave := savePost_ok_of_some (s := s) hk'
        have happ : p.status = "approved" := hstat p (List.mem_cons_self p rest)
        have hstep : reserveLoop s (p :: rest) =
            (.ok (some { p with status := "publishing" }),
              { s with posts := upsertBy Post.post_id ({ p with status := "publishing" }) s.posts }) := by
          simp [reserveLoop, hcond, hb', happ, hsave]
        have htake : (p :: rest).takeWhile (authorBanned s0) = [] := by
          simp [List.takeWhile_cons, hb']
        have hdrop : (p :: rest).dropWhile (authorBanned s0) = p :: rest := by
          simp [List.dropWhile_cons, hb']
        refine ⟨?_, ?_, ?_⟩
        · intro q hq
          rw [htake] at hq
          simp at hq
        · intro hde
          rw [hdrop] at hde
          cases hde
        · intro p' rest' hde
          rw [hdrop] at hde
          injection hde with h1 h2
          subst h1
          refine ⟨by rw [hstep], k, hk, ?_⟩
          rw [hstep]
          exact (getPost_savePost hk' hsave k).trans (if_pos rfl)

/-- C4: `reserve_next_post` scans the `approved` posts in storage order
(sorted stably by `created_at`): every scanned post whose author is banned
is stored as `cancelled`; at the first post whose author is not banned the
scan stops, stores it as `publishing` and returns it; and when every
approved post has a banned author the call returns `none` (all of them
having been cancelled).  Hypotheses: stored posts have ids and the ids are
unique (which `add_post` guarantees). -/
theorem reserveNextPost_scan (s : Storage)
    (hids : ∀ p ∈ s.posts, p.post_id.isSome)
    (hnodup : (s.posts.map Post.post_id).Nodup) :
    (∀ q ∈ (s.listPostsByStatus "approved").takeWhile (authorBanned s),
        ∃ k, q.post_id = some k ∧
          (reserveNextPost s).2.getPost k =
            some { q with status := "cancelled" }) ∧
    ((s.listPostsByStatus "approved").dropWhile (authorBanned s) = [] →
        (reserveNextPost s).1 = .ok none) ∧
    (∀ p rest,
      (s.listPostsByStatus "approved").dropWhile (authorBanned s) = p :: rest →
        (reserveNextPost s).1 = .ok (some { p with status := "publishing" }) ∧
        ∃ k, p.post_id = some k ∧
          (reserveNextPost s).2.getPost k =
            some { p with status := "publishing" }) := by
  have h := reserveLoop_spec s (s.listPostsByStatus "approved") s
    (fun q hq => (mem_listPostsByStatus hq).2)
    (fun q hq => hids q (mem_listPostsByStatus hq).1)
    (nodup_map_listPostsByStatus "approved" hnodup)
    rfl
  exact h

/-- Witness for C4 (Scenario E): one approved post whose author is banned —
the call returns none and the post is stored `cancelled`. -/
theorem reserveNextPost_scan_witness :
    (reserveNextPost storageApprovedBanned).1 = .ok none :=
  (reserveNextPost_scan storageApprovedBanned (by decide) (by decide)).2.1
    (by decide)

/-! ### C6: ticket updatedAt versus the last appended message -/

theorem add_message_messages (t : Ticket) (m : TicketMessage) :
    (t.add_message m).messages = t.messages ++ [m] := by
  simp only [Ticket.add_message]
  split <;> rfl

theorem add_message_updated_at (t : Ticket) (m : TicketMessage) :
    (t.add_message m).updated_at = m.created_at := by
  simp only [Ticket.add_message]
  split <;> rfl

theorem add_message_ticket_id (t : Ticket) (m : TicketMessage) :
    (t.add_message m).ticket_id = t.ticket_id := by
  simp only [Ticket.add_message]
  split <;> rfl

theorem getTicket_eq_some_id {s : Storage} {tid : Int} {t : Ticket}
    (h : s.getTicket tid = some t) : t.ticket_id = tid := by
  have := List.find?_some h
  simpa using this

theorem createTicket_messages (s : Storage) (uid : Int) (msg : String)
    (now : Int) :
    (s.createTicket uid msg now).1.messages =
      [{ message_id := s.ticket_message_sequence,
         ticket_id := s.ticket_sequence, sender := "user", text := msg,
         created_at := now }] ∧
    (s.createTicket uid msg now).1.updated_at = now ∧
    (s.createTicket uid msg now).1.ticket_id = s.ticket_sequence := by
  simp only [Storage.createTicket]
  refine ⟨?_, ?_, ?_⟩ <;>
    · split <;> simp [add_message_messages, add_message_updated_at,
        add_message_ticket_id]

theorem createTicket_stored (s : Storage) (uid : Int) (msg : String)
    (now : Int) :
    (s.createTicket uid msg now).2.getTicket
        (s.createTicket uid msg now).1.ticket_id =
      some (s.createTicket uid msg now).1 := by
  simp only [Storage.createTicket, Storage.getTicket]
  rw [find?_upsertBy Ticket.ticket_id]
  rw [if_pos rfl]

theorem getLast?_append_singleton {α : Type} (l : List α) (a : α) :
    (l ++ [a]).getLast? = some a := by
  simp

theorem storage_addTicketMessage_spec {s : Storage} {tid : Int}
    {sender text : String} {now : Int} {t0 : Ticket}
    (hget : s.getTicket tid = some t0) (t' : Ticket)
    (h : (s.addTicketMessage tid sender text now).1 = some t') :
    t'.messages = t0.messages ++
      [{ message_id := s.ticket_message_sequence, ticket_id := tid,
         sender := sender, text := text, created_at := now }] ∧
    t'.updated_at = now ∧ t'.ticket_id = tid ∧
    (s.addTicketMessage tid sender text now).2.getTicket tid = some t' := by
  have htid := getTicket_eq_some_id hget
  simp only [Storage.addTicketMessage, hget] at h ⊢
  split at h
  · injection h with h'
    subst h'
    have h2tid : True := trivial
    refine ⟨by simp [add_message_messages, htid],
      by simp [add_message_updated_at], by simp [add_message_ticket_id, htid], ?_⟩
    split
    case _ hcond =>
      simp only [Storage.getTicket]
      rw [find?_upsertBy]
      rw [if_pos (by simp [add_message_ticket_id, htid])]
    case _ hcond =>
      exact absurd (by assumption) hcond
  · injection h with h'
    subst h'
    refine ⟨by simp [add_message_messages, htid],
      by simp [add_message_updated_at], by simp [add_message_ticket_id, htid], ?_⟩
    split
    case _ hcond =>
      exact absurd hcond (by assumption)
    case _ hcond =>
      simp only [Storage.getTicket]
      rw [find?_upsertBy]
      rw [if_pos (by simp [add_message_ticket_id, htid])]

/-- C6 (amended): `open_ticket` and `add_ticket_message` maintain the
invariant that the ticket's `updated_at` equals the `created_at` of its most
recently appended message (and store the ticket they return), but
`close_ticket` and `reopen_ticket` stamp `updated_at` with the operation's
current time without appending any message, so a close/reopen later than the
last message breaks the equality. -/
theorem ticket_updatedAt_tracks_messages (uid tid : Int) (msg sender : String)
    (actor : Option Int) (now : Int) (s : Storage) (t : Ticket) (s' : Storage) :
    (openTicket uid msg now s = (.ok t, s') →
      lastMessageTime t = some t.updated_at ∧
      s'.getTicket t.ticket_id = some t) ∧
    (addTicketMessage tid sender msg now s = (.ok t, s') →
      lastMessageTime t = some t.updated_at ∧
      s'.getTicket tid = some t) ∧
    (closeTicket tid actor now s = (.ok t, s') →
      t.updated_at = now ∧ s'.getTicket tid = some t) ∧
    (reopenTicket tid actor now s = (.ok t, s') →
      t.updated_at = now ∧ s'.getTicket tid = some t) := by
  refine ⟨?_, ?_, ?_, ?_⟩
  · -- open_ticket
    intro h
    unfold openTicket at h
    by_cases he : (pyStrip msg) = ""
    · rw [if_pos he] at h
      cases h
    · rw [if_neg he] at h
      obtain ⟨u, s1, hg⟩ : ∃ u s1, getOrCreateUser uid none none s = (u, s1) :=
        ⟨_, _, rfl⟩
      rw [hg] at h
      simp only [] at h
      by_cases hb : u.is_banned = true
      · rw [if_pos hb] at h
        cases h
      · rw [if_neg hb] at h
        have ht : (s1.createTicket uid (pyStrip msg) now).1 = t := by
          have := congrArg Prod.fst h
          simpa using this
        have hs' : (s1.createTicket uid (pyStrip msg) now).2 = s' := by
          have := congrArg Prod.snd h
          simpa using this
        obtain ⟨hmsgs, hupd, _⟩ := createTicket_messages s1 uid (pyStrip msg) now
        constructor
        · rw [← ht]
          unfold lastMessageTime
          rw [hmsgs, hupd]
          rfl
        · rw [← ht, ← hs']
          exact createTicket_stored s1 uid (pyStrip msg) now
  · -- add_ticket_message
    intro h
    unfold addTicketMessage at h
    by_cases he : (pyStrip msg) = ""
    · rw [if_pos he] at h
      cases h
    · rw [if_neg he] at h
      by_cases hsend : (!(sender = "user" || sender = "admin") : Bool) = true
      · rw [if_pos hsend] at h
        cases h
      · rw [if_neg hsend] at h
        obtain ⟨r, s2, hrun⟩ :
            ∃ r s2, s.addTicketMessage tid sender (pyStrip msg) now = (r, s2) :=
          ⟨_, _, rfl⟩
        rw [hrun] at h
        cases r with
        | none =>
            injection h with h1 h2
            cases h1
        | some t'' =>
            injection h with h1 h2
            injection h1 with h1
            subst h1
            subst h2
            cases hget : s.getTicket tid with
            | none =>
                simp only [Storage.addTicketMessage, hget] at hrun
                injection hrun with hr1 hr2
                cases hr1
            | some t0 =>
                obtain ⟨hmsgs, hupd, _, hstored⟩ :=
                  storage_addTicketMessage_spec hget t''
                    (by rw [hrun])
                constructor
                · unfold lastMessageTime
                  rw [hmsgs, hupd, getLast?_append_singleton]
                  rfl
                · simpa [hrun] using hstored
  · -- close_ticket
    intro h
    cases hget : s.getTicket tid with
    | none =>
        unfold closeTicket at h
        rw [hget] at h
        cases h
    | some t0 =>
        simp only [closeTicket, hget] at h
        by_cases hperm :
            ((actor.map (fun a => t0.user_id != a)).getD false) = true
        · rw [if_pos hperm] at h
          cases h
        · rw [if_neg hperm] at h
          injection h with h1 h2
          injection h1 with h1
          subst h1
          subst h2
          refine ⟨rfl, ?_⟩
          rw [getTicket_saveTicket]
          have hti0 : t0.ticket_id = tid := getTicket_eq_some_id hget
          have hti : ({ t0 with status := "closed", updated_at := now } :
              Ticket).ticket_id = tid := hti0
          rw [if_pos hti]
  · -- reopen_ticket
    intro h
    cases hget : s.getTicket tid with
    | none =>
        unfold reopenTicket at h
        rw [hget] at h
        cases h
    | some t0 =>
        simp only [closeTicket, reopenTicket, hget] at h
        by_cases hperm :
            ((actor.map (fun a => t0.user_id != a)).getD false) = true
        · rw [if_pos hperm] at h
          cases h
        · rw [if_neg hperm] at h
          injection h with h1 h2
          injection h1 with h1
          subst h1
          subst h2
          refine ⟨rfl, ?_⟩
          rw [getTicket_saveTicket]
          have hti0 : t0.ticket_id = tid := getTicket_eq_some_id hget
          have hti : ({ t0 with status := "open", updated_at := now } :
              Ticket).ticket_id = tid := hti0
          rw [if_pos hti]

/-- Witness for C6's amended theorem: the concrete `open_ticket` call at
time 0 yields a ticket whose `updated_at` equals its last message's
timestamp. -/
theorem ticket_updatedAt_tracks_messages_witness :
    lastMessageTime sampleOpenTicket = some sampleOpenTicket.updated_at :=
  ((ticket_updatedAt_tracks_messages 1 1 "hi" "user" none 0 emptyStorage
    sampleOpenTicket storageAfterOpen).1 (by decide)).1

/-- C6 counterexample: open a ticket at time 0, close it at time 5 — the
stored reachable ticket has `updated_at = 5` while its most recent message
was appended at 0, refuting the invariant over close/reopen sequences. -/
theorem closeTicket_breaks_updatedAt_invariant :
    (((closeTicket 1 none 5 (openTicket 1 "hi" 0 emptyStorage).2).2.getTicket
        1).map (fun t => (t.updated_at, lastMessageTime t))) =
      some (5, some 0) ∧ (5 : Int) ≠ 0 := by decide

/-! ### C5: JSON round-trips -/

theorem goldenCard_roundtrip (c : GoldenCard) :
    deserializeGoldenCard (serializeGoldenCard c) = c := rfl

theorem ticketMessage_roundtrip {m : TicketMessage} (h : m.sender ≠ "") :
    deserializeTicketMessage (serializeTicketMessage m) = m := by
  simp [deserializeTicketMessage, serializeTicketMessage, h]

theorem foldl_add_message_no_subject (ms : List TicketMessage) :
    ∀ (t0 : Ticket), subjectFalsy t0.subject = false →
      ms.foldl Ticket.add_message t0 =
        { t0 with
          messages := t0.messages ++ ms
          updated_at :=
            match ms.getLast? with
            | none => t0.updated_at
            | some m => m.created_at } := by
  induction ms with
  | nil => intro t0 _; simp
  | cons m ms ih =>
      intro t0 hsubj
      have hadd : t0.add_message m =
          { t0 with messages := t0.messages ++ [m],
                    updated_at := m.created_at } := by
        simp only [Ticket.add_message]
        rw [if_neg]
        simp [hsubj]
      rw [List.foldl_cons, hadd,
        ih { t0 with messages := t0.messages ++ [m],
                     updated_at := m.created_at } hsubj]
      cases ms with
      | nil => simp
      | cons m' ms' =>
          cases hl : (m' :: ms').getLast? with
          | none => simp at hl
          | some x => simp [hl, List.getLast?_cons_cons]

/-- C5 (amended): serialize-then-deserialize is the identity on every User;
on every Post and Invoice with a non-empty status; and on every Ticket whose
status is non-empty, whose subject is a non-empty string, whose message
senders are non-empty, whose messages are already in `created_at` order, and
whose `updatedAt` equals its last message's `created_at`.  (A ticket whose
`updatedAt` differs from the last message's timestamp — e.g. one closed
after its last message — does not round-trip: deserialization replays
`add_message`, resetting `updatedAt` to the last message's `created_at`.) -/
theorem persisted_roundtrip (u : User) (p : Post) (i : Invoice) (t : Ticket)
    (hp : p.status ≠ "") (hi : i.status ≠ "") (ht1 : t.status ≠ "")
    (ht2 : subjectFalsy t.subject = false)
    (ht3 : ∀ m ∈ t.messages, m.sender ≠ "")
    (ht4 : stableSortBy TicketMessage.created_at t.messages = t.messages)
    (ht5 : t.messages ≠ [] → lastMessageTime t = some t.updated_at) :
    deserializeUser (serializeUser u) = u ∧
    deserializePost (serializePost p) = p ∧
    deserializeInvoice (serializeInvoice i) = i ∧
    deserializeTicket (serializeTicket t) = t := by
  refine ⟨?_, ?_, ?_, ?_⟩
  · have hcomp : deserializeGoldenCard ∘ serializeGoldenCard = id :=
      funext goldenCard_roundtrip
    simp [deserializeUser, serializeUser, List.map_map, hcomp,
      Finset.sort_toFinset]
  · simp [deserializePost, serializePost, hp]
  · simp [deserializeInvoice, serializeInvoice, hi]
  · have hmsgs : (t.messages.map serializeTicketMessage).map
        deserializeTicketMessage = t.messages := by
      rw [List.map_map]
      have : ∀ m ∈ t.messages,
          (deserializeTicketMessage ∘ serializeTicketMessage) m = id m :=
        fun m hm => ticketMessage_roundtrip (ht3 m hm)
      rw [List.map_congr_left this, List.map_id]
    simp only [deserializeTicket, serializeTicket, hmsgs, ht4]
    rw [if_neg ht1]
    rw [foldl_add_message_no_subject t.messages
      { ticket_id := t.ticket_id, user_id := t.user_id, status := t.status,
        subject := t.subject, created_at := t.created_at,
        updated_at := t.updated_at, messages := [] } ht2]
    cases hl : t.messages.getLast? with
    | none => simp [hl]
    | some x =>
        have hne : t.messages ≠ [] := by
          intro hnil; rw [hnil] at hl; simp at hl
        have h5 := ht5 hne
        unfold lastMessageTime at h5
        rw [hl] at h5
        simp only [Option.map] at h5
        injection h5 with h5
        simp [hl, h5]

/-- Witness for C5's amended theorem on concrete entities of each kind. -/
theorem persisted_roundtrip_witness :
    deserializeUser (serializeUser sampleUser) = sampleUser ∧
    deserializePost (serializePost samplePendingPost) = samplePendingPost ∧
    deserializeInvoice (serializeInvoice sampleInvoice) = sampleInvoice ∧
    deserializeTicket (serializeTicket sampleOpenTicket) = sampleOpenTicket :=
  persisted_roundtrip sampleUser samplePendingPost sampleInvoice
    sampleOpenTicket (by decide) (by decide) (by decide) (by decide)
    (by decide) (by decide) (fun _ => by decide)

/-- C5 counterexample: the closed ticket (updatedAt 5, last message at 0)
does not survive the round-trip — deserialization resets `updatedAt` to the
last message's `created_at`. -/
theorem ticket_roundtrip_loses_updatedAt :
    (deserializeTicket (serializeTicket closedTicket)).updated_at = 0 ∧
    closedTicket.updated_at = 5 ∧
    deserializeTicket (serializeTicket closedTicket) ≠ closedTicket := by
  decide

/-! ### C1: energy never goes negative -/

theorem mem_upsertBy {α κ : Type} [DecidableEq κ] {key : α → κ} {x y : α}
    {l : List α} (h : y ∈ upsertBy key x l) : y = x ∨ y ∈ l := by
  induction l with
  | nil => simpa [upsertBy] using h
  | cons z zs ih =>
      simp only [upsertBy] at h
      split at h
      · rcases List.mem_cons.mp h with h | h
        · exact Or.inl h
        · exact Or.inr (List.mem_cons_of_mem z h)
      · rcases List.mem_cons.mp h with h | h
        · exact Or.inr (by rw [h]; exact List.mem_cons_self z zs)
        · rcases ih h with h | h
          · exact Or.inl h
          · exact Or.inr (List.mem_cons_of_mem z h)

theorem allNonneg_saveUser {s : Storage} {u : User} (hu : 0 ≤ u.energy)
    (h : allEnergyNonneg s) : allEnergyNonneg (s.saveUser u) := by
  intro v hv
  rcases mem_upsertBy hv with hv | hv
  · rw [hv]; exact hu
  · exact h v hv

theorem nonneg_of_getUser {s : Storage} {uid : Int} {u : User}
    (h : allEnergyNonneg s) (hg : s.getUser uid = some u) : 0 ≤ u.energy :=
  h u (List.mem_of_find?_eq_some hg)

theorem getOrCreate_fst_nonneg {s : Storage} (uid : Int)
    (h : allEnergyNonneg s) :
    0 ≤ (getOrCreateUser uid none none s).1.energy := by
  cases hg : s.getUser uid
  · simp [getOrCreateUser_none, hg, mkUser]
  · simp only [getOrCreateUser_none, hg]
    exact nonneg_of_getUser h hg

theorem allNonneg_getOrCreate {s : Storage} (uid : Int)
    (h : allEnergyNonneg s) :
    allEnergyNonneg (getOrCreateUser uid none none s).2 := by
  cases hg : s.getUser uid
  · simp only [getOrCreateUser_none, hg]
    exact allNonneg_saveUser (by simp [mkUser]) h
  · simp only [getOrCreateUser_none, hg]
    exact h

theorem add_energy_ok_nonneg {u u' : User} {a : Int}
    (h : u.add_energy a = .ok u') (hu : 0 ≤ u.energy) : 0 ≤ u'.energy := by
  unfold User.add_energy at h
  split at h
  · cases h
  · injection h with h'
    subst h'
    simp only []
    omega

theorem spend_energy_ok_nonneg {u u' : User} {a : Int}
    (h : u.spend_energy a = .ok u') : 0 ≤ u'.energy := by
  unfold User.spend_energy at h
  split at h
  · cases h
  · split at h
    · cases h
    · injection h with h'
      subst h'
      simp only []
      omega

theorem pop_active_energy (u : User) (now : Int) :
    (u.pop_active_golden_card now).2.energy = u.energy := rfl

theorem allNonneg_posts_irrelevant {s : Storage} {posts' : List Post}
    {seq : Int} (h : allEnergyNonneg s) :
    allEnergyNonneg { s with posts := posts', post_sequence := seq } := h

theorem applyOp_nonneg (svc : Service) (op : Op) (s : Storage)
    (h : allEnergyNonneg s) : allEnergyNonneg (applyOp svc s op) := by
  cases op with
  | register uid sub un fn =>
      simp only [applyOp, registerUser]
      by_cases hsub : (!sub) = true
      · rw [if_pos hsub]; exact h
      · rw [if_neg hsub]
        cases hg : s.getUser uid with
        | none =>
            simp only []
            cases hadd : (mkUser uid un fn).add_energy svc.registration_energy with
            | error e => exact h
            | ok u' =>
                exact allNonneg_saveUser
                  (add_energy_ok_nonneg hadd (by simp [mkUser])) h
        | some u =>
            simp only []
            have hu : 0 ≤ u.energy := nonneg_of_getUser h hg
            cases un with
            | none =>
                cases fn with
                | none => simp only []; exact h
                | some n =>
                    simp only []
                    split
                    · split
                      · exact allNonneg_saveUser hu h
                      · exact h
                    · split
                      · exact allNonneg_saveUser hu h
                      · exact h
            | some n =>
                cases fn with
                | none =>
                    simp only []
                    split <;> split
                    · exact allNonneg_saveUser hu h
                    · exact h
                    · exact allNonneg_saveUser hu h
                    · exact h
                | some n2 =>
                    simp only []
                    split <;> split <;> split
                    all_goals
                      first
                        | exact allNonneg_saveUser hu h
                        | exact h
  | credit uid a =>
      simp only [applyOp, creditEnergy]
      by_cases ha : a ≤ 0
      · rw [if_pos ha]; exact h
      · rw [if_neg ha]
        have h1 := allNonneg_getOrCreate (s := s) uid h
        have h2 := getOrCreate_fst_nonneg (s := s) uid h
        split
        · exact h1
        · cases hadd : (getOrCreateUser uid none none s).1.add_energy a with
          | error e => simp only [hadd]; exact h1
          | ok u' =>
              simp only [hadd]
              exact allNonneg_saveUser (add_energy_ok_nonneg hadd h2) h1
  | purchase uid a =>
      simp only [applyOp, purchaseEnergy]
      have h1 := allNonneg_getOrCreate (s := s) uid h
      have h2 := getOrCreate_fst_nonneg (s := s) uid h
      split
      · exact h1
      · cases hadd : (getOrCreateUser uid none none s).1.add_energy a with
        | error e => simp only [hadd]; exact h1
        | ok u' =>
            simp only [hadd]
            exact allNonneg_saveUser (add_energy_ok_nonneg hadd h2) h1
  | submit uid text bt bu ph pm now =>
      simp only [applyOp, submitPost]
      have h1 := allNonneg_getOrCreate (s := s) uid h
      split
      · exact h1
      · split
        · exact h1
        · cases hsp : (getOrCreateUser uid none none s).1.spend_energy
              svc.post_energy_cost with
          | error e => simp only [hsp]; exact h1
          | ok u2 =>
              simp only [hsp]
              have hnn : 0 ≤ (u2.pop_active_golden_card now).2.energy := by
                rw [pop_active_energy]
                exact spend_energy_ok_nonneg hsp
              have h3 := allNonneg_saveUser hnn h1
              unfold Storage.addPost
              split
              · exact allNonneg_posts_irrelevant h3
              · exact allNonneg_posts_irrelevant h3
  | goldenWithEnergy uid dur now =>
      simp only [applyOp, purchaseGoldenCardWithEnergy]
      cases hc : energyCostForGoldenCard svc dur with
      | error e => exact h
      | ok oc =>
          cases oc with
          | none => exact h
          | some c =>
              simp only []
              have h1 := allNonneg_getOrCreate (s := s) uid h
              split
              · exact h1
              · cases hsp : (getOrCreateUser uid none none s).1.spend_energy c with
                | error e => simp only [hsp]; exact h1
                | ok u2 =>
                    simp only [hsp]
                    have hnn0 : 0 ≤ u2.energy := spend_energy_ok_nonneg hsp
                    have hnn : 0 ≤ ({ u2 with golden_cards :=
                        u2.golden_cards ++ [⟨dur, now⟩] } : User).energy := hnn0
                    exact allNonneg_saveUser hnn h1
  | setEnergy uid v =>
      simp only [applyOp, setUserEnergy]
      by_cases hv : v < 0
      · rw [if_pos hv]; exact h
      · rw [if_neg hv]
        exact allNonneg_saveUser (by simp only []; omega)
          (allNonneg_getOrCreate uid h)
  | adjustEnergy uid d =>
      simp only [applyOp, adjustUserEnergy]
      have h1 := allNonneg_getOrCreate (s := s) uid h
      split
      · exact h1
      case _ hlt =>
        exact allNonneg_saveUser (by simp only []; omega) h1

theorem runOps_nonneg (svc : Service) (ops : List Op) :
    ∀ (s : Storage), allEnergyNonneg s → allEnergyNonneg (runOps svc ops s) := by
  induction ops with
  | nil => exact fun s h => h
  | cons op ops ih =>
      intro s h
      exact ih _ (applyOp_nonneg svc op s h)

/-- C1: starting from any storage whose users all have non-negative energy,
every sequence of economy operations (registration, energy credit/purchase,
post submission, golden-card purchase with energy, admin set/adjust energy)
keeps every stored balance non-negative; and each operation that would
overdraw fails and leaves storage exactly as it was: a negative
`set_user_energy` and an overdrawing `adjust_user_energy` return the error
with the storage unchanged, and `submit_post` /
`purchase_golden_card_with_energy` on a user whose energy is below the cost
raise without changing storage. -/
theorem energy_never_negative (svc : Service) (s : Storage) :
    (allEnergyNonneg s → ∀ ops : List Op, allEnergyNonneg (runOps svc ops s)) ∧
    (∀ uid v, v < 0 → setUserEnergy uid v s = (.error .negativeBalance, s)) ∧
    (∀ uid d u, s.getUser uid = some u → u.energy + d < 0 →
      adjustUserEnergy uid d s = (.error .negativeResultingBalance, s)) ∧
    (∀ uid text bt bu ph pm now u, s.getUser uid = some u →
      u.energy < svc.post_energy_cost →
      ∃ e, submitPost svc uid text bt bu ph pm now s = (.error e, s)) ∧
    (∀ uid dur now c u, s.getUser uid = some u →
      energyCostForGoldenCard svc dur = .ok (some c) → u.energy < c →
      ∃ e, purchaseGoldenCardWithEnergy svc uid dur now s = (.error e, s)) := by
  refine ⟨fun h ops => runOps_nonneg svc ops s h, ?_, ?_, ?_, ?_⟩
  · intro uid v hv
    simp [setUserEnergy, hv]
  · intro uid d u hg hlt
    have hgoc : getOrCreateUser uid none none s = (u, s) := by
      rw [getOrCreateUser_none, hg]
    simp [adjustUserEnergy, hgoc, hlt]
  · intro uid text bt bu ph pm now u hg hlt
    have hgoc : getOrCreateUser uid none none s = (u, s) := by
      rw [getOrCreateUser_none, hg]
    simp only [submitPost, hgoc]
    by_cases hb : u.is_banned = true
    · exact ⟨.userBanned, by simp [hb]⟩
    · by_cases hf : (!(isAllowed svc.banned_words text)) = true
      · exact ⟨.contentRejected, by simp [hb, hf]⟩
      · by_cases hcost : svc.post_energy_cost ≤ 0
        · exact ⟨.spendNotPositive, by
            simp [hb, hf, User.spend_energy, hcost]⟩
        · exact ⟨.notEnoughEnergy, by
            simp [hb, hf, User.spend_energy, hcost, hlt]⟩
  · intro uid dur now c u hg hc hlt
    have hgoc : getOrCreateUser uid none none s = (u, s) := by
      rw [getOrCreateUser_none, hg]
    simp only [purchaseGoldenCardWithEnergy, hc, hgoc]
    by_cases hb : u.is_banned = true
    · exact ⟨.userBanned, by simp [hb]⟩
    · by_cases hcost : c ≤ 0
      · exact ⟨.spendNotPositive, by simp [hb, User.spend_energy, hcost]⟩
      · exact ⟨.notEnoughEnergy, by
          simp [hb, User.spend_energy, hcost, hlt]⟩

/-- Witness for C1: a concrete operation sequence keeps all balances
non-negative, and a concrete overdrawing adjustment fails leaving the
storage unchanged. -/
theorem energy_never_negative_witness :
    allEnergyNonneg (runOps sampleService
      [Op.register 1 true none none, Op.credit 1 30,
       Op.submit 1 "hello" none none none none 0, Op.adjustEnergy 1 (-100)]
      emptyStorage) ∧
    adjustUserEnergy 1 (-100) storagePending40 =
      (.error .negativeResultingBalance, storagePending40) := by
  constructor
  · exact (energy_never_negative sampleService emptyStorage).1
      (by unfold allEnergyNonneg; decide) _
  · exact (energy_never_negative sampleService storagePending40).2.2.1 1 (-100)
      { mkUser 1 none none with energy := 40 } (by decide) (by decide)

end ChannelAdmin
